import Mathlib

/-!
Shallow embedding of the scoring and classification engine of `database.py`
(a Dota2 private-league score tracker).  Pure Lean functions model the Python
functions; the JSON document becomes an explicit `GameData` value threaded
through every operation.  Python `dict`s are modelled as insertion-ordered
association lists: `alookup` finds the first binding, `aupdate` rewrites it in
place, and a fresh key is appended at the end — exactly CPython's dictionary
semantics for the operations the source performs.  Floating-point scores are
modelled as rationals: every value the engine adds is a multiple of 0.5, which
binary floats represent exactly.  Python's stable `list.sort(reverse=True)` is
modelled by Mathlib's stable `List.insertionSort` with a descending
comparator; a stable sort is determined up to equality by the comparator, so
this is the same function.  Fields of a player appearance that no modelled
operation reads (hero, level, kda, participation, damage, economy) and pure
metadata of a match (date, timestamp) are omitted.
-/

/-- Per-relation counters kept in the `teammates` / `opponents` maps
(`{"games": 0, "wins": 0}` in the source). -/
structure TmStat where
  games : Nat
  wins : Nat
deriving DecidableEq

/-- One player's aggregate record (`data["players"][name]` in the source).
`season_score` and `season_games` appear in the source's zero-initialiser and
are never modified by any modelled operation. -/
structure PlayerRecord where
  name : String
  total_games : Nat
  wins : Nat
  losses : Nat
  score : Rat
  season_score : Rat
  season_games : Nat
  mvp_count : Nat
  svp_count : Nat
  jiang_count : Nat
  teammates : List (String × TmStat)
  opponents : List (String × TmStat)
deriving DecidableEq

/-- One player's appearance inside a match record: only the fields the
scoring engine reads (`name` and `tags`). -/
structure PlayerAppearance where
  name : String
  tags : List String
deriving DecidableEq

/-- The verdict returned by `calculate_compensation`. -/
structure CompInfo where
  winner_score : Int
  loser_score : Int
  difference : Int
  compensation : Rat
  invalid : Bool
  all_classified : Bool
deriving DecidableEq

/-- A stored match record (id, winner label, the two rosters, and the
verdict persisted at insertion time). -/
structure MatchRecord where
  id : Nat
  winner : String
  radiant_players : List PlayerAppearance
  dire_players : List PlayerAppearance
  compensation_info : CompInfo
deriving DecidableEq

/-- The caller-supplied part of a new match (`match_data` before the id and
the verdict are filled in by `add_match`). -/
structure MatchInput where
  winner : String
  radiant_players : List PlayerAppearance
  dire_players : List PlayerAppearance
deriving DecidableEq

/-- The whole JSON document (the fields the scoring engine touches). -/
structure GameData where
  match_list : List MatchRecord
  players : List (String × PlayerRecord)
  horse_overrides : List (String × String)
deriving DecidableEq

/-- Return value of `add_match`. -/
structure AddResult where
  match_id : Nat
  compensation_info : CompInfo
  invalid : Bool
deriving DecidableEq

abbrev PMap := List (String × PlayerRecord)

/-- `d[key]` on an insertion-ordered association list: first binding wins. -/
def alookup {α : Type} : List (String × α) → String → Option α
  | [], _ => none
  | (k, v) :: rest, key => if k = key then some v else alookup rest key

/-- In-place update of the first binding of `key` (no-op when absent),
modelling mutation of a `dict` entry. -/
def aupdate {α : Type} (f : α → α) : List (String × α) → String → List (String × α)
  | [], _ => []
  | (k, v) :: rest, key =>
    if k = key then (k, f v) :: rest else (k, v) :: aupdate f rest key

/-- `HORSE_LEVELS`: tier label to roster value. -/
def HORSE_LEVELS : List (String × Int) := [("特等", 1), ("中等", 0), ("自动", -1)]

/-- The qualified players (`total_games ≥ 20`), in document order, paired
with their score: the list built by the first loop of
`calculate_auto_horse_level`. -/
def qualified_players (data : GameData) : List (String × Rat) :=
  (data.players.filter (fun np => decide (20 ≤ np.2.total_games))).map
    (fun np => (np.1, np.2.score))

/-- Python's stable `sort(key=score, reverse=True)`: stable descending sort,
modelled by insertion sort with a non-strict descending comparator. -/
def sortDesc (qs : List (String × Rat)) : List (String × Rat) :=
  List.insertionSort (fun a b => b.2 ≤ a.2) qs

/-- The rank-search loop of `calculate_auto_horse_level`: 1-based position of
the first entry with the given name, `-1` when absent. -/
def rankOf (sorted : List (String × Rat)) (player_name : String) : Int :=
  match sorted.findIdx? (fun p => p.1 == player_name) with
  | some i => (i : Int) + 1
  | none => -1

/-- `calculate_auto_horse_level`: percentile tier of one player among the
qualified players. -/
def calculate_auto_horse_level (data : GameData) (player_name : String) : String :=
  let qs := qualified_players data
  if qs.isEmpty then "中等"
  else
    let sorted := sortDesc qs
    let total := sorted.length
    let rank := rankOf sorted player_name
    if rank = -1 then "中等"
    else
      let percentile : Rat := (rank : Rat) / (total : Rat)
      if percentile ≤ 0.2 then "特等"
      else if percentile ≤ 0.8 then "中等"
      else "自动"

/-- `get_player_horse_level`: manual override first, else empty below 20
games, else the automatic percentile tier. -/
def get_player_horse_level (data : GameData) (player_name : String) : String :=
  match alookup data.horse_overrides player_name with
  | some lvl => lvl
  | none =>
    match alookup data.players player_name with
    | none => ""
    | some player =>
      if player.total_games < 20 then ""
      else calculate_auto_horse_level data player_name

/-- `get_horse_value`: `None` for the empty (unclassified) label, else the
`HORSE_LEVELS` value with default 0. -/
def get_horse_value (horse_level : String) : Option Int :=
  if horse_level = "" then none
  else some ((alookup HORSE_LEVELS horse_level).getD 0)

/-- `calculate_team_score`: sum of roster tier values; unnamed entries are
skipped and unclassified players count 0. -/
def calculate_team_score (data : GameData) (players : List PlayerAppearance) : Int :=
  players.foldl
    (fun total player =>
      if player.name = "" then total
      else
        match get_horse_value (get_player_horse_level data player.name) with
        | some v => total + v
        | none => total)
    0

/-- The `all_classified` scan of `calculate_compensation` (a `for` loop with
early `break`, equivalently `List.all`). -/
def all_classified_check (data : GameData) (all_players : List PlayerAppearance) : Bool :=
  all_players.all
    (fun p => decide (p.name = "") || decide (get_player_horse_level data p.name ≠ ""))

/-- `calculate_compensation`: the team-balance verdict for one match. -/
def calculate_compensation (data : GameData) (winner_players loser_players : List PlayerAppearance) :
    CompInfo :=
  let all_classified := all_classified_check data (winner_players ++ loser_players)
  if !all_classified then
    { winner_score := 0, loser_score := 0, difference := 0, compensation := 0,
      invalid := false, all_classified := all_classified }
  else
    let winner_score := calculate_team_score data winner_players
    let loser_score := calculate_team_score data loser_players
    let difference := winner_score - loser_score
    let comp_invalid : Rat × Bool :=
      if 0 < difference then
        if 2 ≤ difference then (0, true) else (0.5, false)
      else (0, false)
    { winner_score := winner_score, loser_score := loser_score,
      difference := difference, compensation := comp_invalid.1,
      invalid := comp_invalid.2, all_classified := all_classified }

/-- The zero-initialised record created on a player's first appearance. -/
def initPlayer (name : String) : PlayerRecord :=
  { name := name, total_games := 0, wins := 0, losses := 0, score := 0,
    season_score := 0, season_games := 0, mvp_count := 0, svp_count := 0,
    jiang_count := 0, teammates := [], opponents := [] }

/-- The mutation body of `update_player_stats`: one appearance applied to one
record (the record already exists when this runs). -/
def apply_score_rules (p : PlayerRecord) (tags : List String) (won : Bool)
    (bonus_score : Rat) : PlayerRecord :=
  let is_mvp := tags.contains "MVP"
  let is_svp := tags.contains "SVP"
  let is_jiang := tags.contains "僵"
  let p := { p with total_games := p.total_games + 1 }
  let p :=
    if won then
      let p := { p with wins := p.wins + 1, score := p.score + 1 }
      if is_mvp then { p with score := p.score + 0.5 } else p
    else
      let p := { p with losses := p.losses + 1, score := p.score - 1 }
      let p := if is_svp then { p with score := p.score + 0.5 } else p
      if is_jiang then { p with score := p.score - 0.5 } else p
  let p := if 0 < bonus_score then { p with score := p.score + bonus_score } else p
  let p := if is_mvp then { p with mvp_count := p.mvp_count + 1 } else p
  let p := if is_svp then { p with svp_count := p.svp_count + 1 } else p
  if is_jiang then { p with jiang_count := p.jiang_count + 1 } else p

/-- `update_player_stats`, restricted to the players map it actually
modifies: skip unnamed entries, create the record on first appearance, then
apply the scoring rules. -/
def update_player_stats_players (players : PMap) (player : PlayerAppearance)
    (won : Bool) (bonus_score : Rat) : PMap :=
  if player.name = "" then players
  else
    let players :=
      if (alookup players player.name).isNone then
        players ++ [(player.name, initPlayer player.name)]
      else players
    aupdate (fun p => apply_score_rules p player.tags won bonus_score) players player.name

/-- `update_player_stats` on the whole document (the `opponents` parameter is
unused in the source as well). -/
def update_player_stats (data : GameData) (player : PlayerAppearance) (won : Bool)
    (opponents : List PlayerAppearance) (bonus_score : Rat) : GameData :=
  { data with players := update_player_stats_players data.players player won bonus_score }

/-- Roster names with unnamed entries dropped
(`[p["name"] for p in ... if p.get("name")]`). -/
def roster_names (ps : List PlayerAppearance) : List String :=
  (ps.filter (fun p => decide (p.name ≠ ""))).map PlayerAppearance.name

/-- Create-if-absent then bump one `{games, wins}` counter pair. -/
def bumpStat (m : List (String × TmStat)) (key : String) (won : Bool) :
    List (String × TmStat) :=
  let m := if (alookup m key).isNone then m ++ [(key, ⟨0, 0⟩)] else m
  aupdate (fun s => ⟨s.games + 1, if won then s.wins + 1 else s.wins⟩) m key

/-- Inner teammate loop of `update_teammate_opponent_stats`: subject `name1`
at outer index `i`, running index `j` over the team roster, bumping
`teammates[name2]` whenever `i ≠ j`. -/
def teammate_inner (name1 : String) (i : Nat) (won : Bool) :
    Nat → List String → PMap → PMap
  | _, [], players => players
  | j, name2 :: rest, players =>
    teammate_inner name1 i won (j + 1) rest
      (if i ≠ j then
        aupdate (fun p => { p with teammates := bumpStat p.teammates name2 won })
          players name1
      else players)

/-- Inner opponent loop: bump `opponents[name2]` for every opposing name. -/
def opponent_inner (name1 : String) (won : Bool) : List String → PMap → PMap
  | [], players => players
  | name2 :: rest, players =>
    opponent_inner name1 won rest
      (aupdate (fun p => { p with opponents := bumpStat p.opponents name2 won })
        players name1)

/-- Outer loop of one team block: for each subject (skipped when it has no
player record), run the teammate loop over its own team and the opponent loop
over the other team. -/
def team_outer (team_names opp_names : List String) (won : Bool) :
    Nat → List String → PMap → PMap
  | _, [], players => players
  | i, name1 :: rest, players =>
    team_outer team_names opp_names won (i + 1) rest
      (if (alookup players name1).isNone then players
       else opponent_inner name1 won opp_names
              (teammate_inner name1 i won 0 team_names players))

/-- `update_teammate_opponent_stats`, restricted to the players map. -/
def update_teammate_opponent_stats_players (players : PMap) (md : MatchRecord) : PMap :=
  let radiant_names := roster_names md.radiant_players
  let dire_names := roster_names md.dire_players
  let radiant_won := md.winner == "天辉"
  let dire_won := md.winner == "夜魔"
  let players := team_outer radiant_names dire_names radiant_won 0 radiant_names players
  team_outer dire_names radiant_names dire_won 0 dire_names players

/-- `update_teammate_opponent_stats` on the whole document. -/
def update_teammate_opponent_stats (data : GameData) (md : MatchRecord) : GameData :=
  { data with players := update_teammate_opponent_stats_players data.players md }

/-- Application of one (stored) match to the players map: the shared body of
`add_match` and of the replay loop in `recalculate_all_stats`.  The bonus for
a team is the match's stored compensation when that team did not win and the
compensation is positive. -/
def apply_match_players (players : PMap) (md : MatchRecord) : PMap :=
  let radiant_won := md.winner == "天辉"
  let dire_won := md.winner == "夜魔"
  let compensation := md.compensation_info.compensation
  let bonus_radiant : Rat :=
    if !radiant_won && decide (0 < compensation) then compensation else 0
  let bonus_dire : Rat :=
    if !dire_won && decide (0 < compensation) then compensation else 0
  let players := md.radiant_players.foldl
    (fun ps p => update_player_stats_players ps p radiant_won bonus_radiant) players
  let players := md.dire_players.foldl
    (fun ps p => update_player_stats_players ps p dire_won bonus_dire) players
  update_teammate_opponent_stats_players players md

/-- One match applied to the whole document. -/
def apply_match_core (data : GameData) (md : MatchRecord) : GameData :=
  { data with players := apply_match_players data.players md }

/-- The record `add_match` builds and appends: `id = count + 1`, the
caller's winner and rosters, and the verdict computed against the current
snapshot (the winner roster is radiant exactly when the winner label is the
radiant label). -/
def add_md (data : GameData) (input : MatchInput) : MatchRecord :=
  let radiant_won := input.winner == "天辉"
  let winner_players := if radiant_won then input.radiant_players else input.dire_players
  let loser_players := if radiant_won then input.dire_players else input.radiant_players
  { id := data.match_list.length + 1, winner := input.winner,
    radiant_players := input.radiant_players, dire_players := input.dire_players,
    compensation_info := calculate_compensation data winner_players loser_players }

/-- `add_match`: assign `id = count + 1`, compute the verdict against the
current snapshot, store it on the record, apply the per-player and relation
updates, append the record. -/
def add_match (data : GameData) (input : MatchInput) : GameData × AddResult :=
  let md := add_md data input
  let data2 := apply_match_core data md
  ({ data2 with match_list := data2.match_list ++ [md] },
   { match_id := md.id, compensation_info := md.compensation_info,
     invalid := md.compensation_info.invalid })

/-- Replay of a match list from an empty players map, using each match's
stored verdict. -/
def replay_players (ms : List MatchRecord) : PMap :=
  ms.foldl apply_match_players []

/-- `recalculate_all_stats`: reset the players map and replay every stored
match in order. -/
def recalculate_all_stats (data : GameData) : GameData :=
  data.match_list.foldl apply_match_core { data with players := [] }

/-- `delete_match`: not-found signal when no match carries the id, else drop
the record(s) with that id and recompute everything. -/
def delete_match (data : GameData) (match_id : Nat) : GameData × Bool :=
  if (data.match_list.find? (fun m => m.id == match_id)).isNone then (data, false)
  else
    let data := { data with match_list := data.match_list.filter (fun m => !(m.id == match_id)) }
    (recalculate_all_stats data, true)

/-- `update_match`: not-found signal when no match carries the id, else
replace the record in place (keeping the original id) and recompute. -/
def update_match (data : GameData) (match_id : Nat) (new_md : MatchRecord) :
    GameData × Bool :=
  match data.match_list.findIdx? (fun m => m.id == match_id) with
  | none => (data, false)
  | some i =>
    let original_id := match data.match_list.get? i with
      | some m => m.id
      | none => match_id
    let data := { data with match_list := data.match_list.set i { new_md with id := original_id } }
    (recalculate_all_stats data, true)

/-- A ledger mutation, for stating invariants over operation sequences. -/
inductive LedgerOp where
  | add (input : MatchInput)
  | update (id : Nat) (new_md : MatchRecord)
  | delete (id : Nat)

/-- Apply one ledger mutation. -/
def apply_op (data : GameData) : LedgerOp → GameData
  | .add input => (add_match data input).1
  | .update id md => (update_match data id md).1
  | .delete id => (delete_match data id).1

/-- Apply a sequence of ledger mutations. -/
def apply_ops (data : GameData) (ops : List LedgerOp) : GameData :=
  ops.foldl apply_op data

/-- Games recorded in `x`'s teammate entry for `y` (0 when either the record
or the entry is missing). -/
def tmGames (players : PMap) (x y : String) : Nat :=
  match alookup players x with
  | none => 0
  | some p =>
    match alookup p.teammates y with
    | none => 0
    | some s => s.games

/-! ## Association-list lemmas -/

theorem alookup_append_left {α : Type} {l1 : List (String × α)} (l2 : List (String × α))
    {k : String} {v : α} (h : alookup l1 k = some v) : alookup (l1 ++ l2) k = some v := by
  induction l1 with
  | nil => simp [alookup] at h
  | cons a rest ih =>
    obtain ⟨ka, va⟩ := a
    by_cases hk : ka = k
    · simp [alookup, hk] at h ⊢; exact h
    · simp [alookup, hk] at h ⊢; exact ih h

theorem alookup_append_right {α : Type} {l1 : List (String × α)} (l2 : List (String × α))
    {k : String} (h : alookup l1 k = none) : alookup (l1 ++ l2) k = alookup l2 k := by
  induction l1 with
  | nil => simp [alookup]
  | cons a rest ih =>
    obtain ⟨ka, va⟩ := a
    by_cases hk : ka = k
    · simp [alookup, hk] at h
    · simp [alookup, hk] at h ⊢; exact ih h

theorem alookup_aupdate_self {α : Type} (f : α → α) (l : List (String × α)) (k : String) :
    alookup (aupdate f l k) k = (alookup l k).map f := by
  induction l with
  | nil => simp [alookup, aupdate]
  | cons a rest ih =>
    obtain ⟨ka, va⟩ := a
    by_cases hk : ka = k
    · simp [alookup, aupdate, hk]
    · simp [alookup, aupdate, hk, ih]

theorem alookup_aupdate_ne {α : Type} (f : α → α) (l : List (String × α)) {k k' : String}
    (h : k' ≠ k) : alookup (aupdate f l k) k' = alookup l k' := by
  induction l with
  | nil => simp [aupdate]
  | cons a rest ih =>
    obtain ⟨ka, va⟩ := a
    by_cases hk : ka = k
    · subst hk
      have hne : ¬(ka = k') := fun hh => h hh.symm
      simp [alookup, aupdate, hne]
    · by_cases hk' : ka = k'
      · simp [alookup, aupdate, hk, hk', h]
      · simp [alookup, aupdate, hk, hk', ih]

theorem alookup_some_mem {α : Type} {l : List (String × α)} {k : String} {v : α}
    (h : alookup l k = some v) : (k, v) ∈ l := by
  induction l with
  | nil => simp [alookup] at h
  | cons a rest ih =>
    obtain ⟨ka, va⟩ := a
    by_cases hk : ka = k
    · simp [alookup, hk] at h
      subst hk; subst h; exact List.mem_cons_self _ _
    · simp [alookup, hk] at h
      exact List.mem_cons_of_mem _ (ih h)

/-- The record seen for `name` (zero-initialised when absent), the basis of
the per-player delta statements. -/
def player_before (players : PMap) (name : String) : PlayerRecord :=
  (alookup players name).getD (initPlayer name)

theorem update_pp_effect (players : PMap) (p : PlayerAppearance) (won : Bool)
    (bonus : Rat) (h : p.name ≠ "") :
    alookup (update_player_stats_players players p won bonus) p.name =
      some (apply_score_rules (player_before players p.name) p.tags won bonus) := by
  unfold update_player_stats_players
  simp only [h, if_neg, if_false]
  rcases hl : alookup players p.name with _ | v
  · simp only [hl, Option.isNone_none, if_pos]
    have h0 : alookup (players ++ [(p.name, initPlayer p.name)]) p.name =
        some (initPlayer p.name) := by
      rw [alookup_append_right _ hl]; simp [alookup]
    rw [alookup_aupdate_self, h0, player_before, hl]
    rfl
  · simp only [hl, Option.isNone_some, if_neg, Bool.false_eq_true, not_false_iff]
    rw [alookup_aupdate_self, hl, player_before, hl]
    rfl

theorem update_pp_frame (players : PMap) (p : PlayerAppearance) (won : Bool)
    (bonus : Rat) {k : String} (h : k ≠ p.name) :
    alookup (update_player_stats_players players p won bonus) k = alookup players k := by
  unfold update_player_stats_players
  by_cases hp : p.name = ""
  · simp [hp]
  · simp only [hp, if_neg, if_false]
    rcases hl : alookup players p.name with _ | v
    · simp only [hl, Option.isNone_none, if_pos]
      rw [alookup_aupdate_ne _ _ h]
      rcases hk : alookup players k with _ | w
      · rw [alookup_append_right _ hk]
        have hne : ¬(p.name = k) := fun hh => h hh.symm
        simp [alookup, hne, hk]
      · rw [alookup_append_left _ hk]
    · simp only [hl, Option.isNone_some, if_neg, Bool.false_eq_true, not_false_iff]
      rw [alookup_aupdate_ne _ _ h]

/-! ## Claim C1: compensation verdict -/

theorem all_classified_iff (data : GameData) (ps : List PlayerAppearance) :
    all_classified_check data ps = true ↔
      ∀ p ∈ ps, p.name ≠ "" → get_player_horse_level data p.name ≠ "" := by
  unfold all_classified_check
  simp [List.all_eq_true, or_iff_not_imp_left]

/-- Claim C1: with every named roster player classified, the verdict's
difference is winner value minus loser value; difference ≥ 2 flags the match
invalid with zero compensation, difference = 1 yields 0.5 compensation and no
invalidation, difference ≤ 0 yields neither; with any named roster player
unclassified, compensation is 0 and the match is not invalidated. -/
theorem claim_C1 (data : GameData) (wp lp : List PlayerAppearance) :
    ((∀ p ∈ wp ++ lp, p.name ≠ "" → get_player_horse_level data p.name ≠ "") →
      (calculate_compensation data wp lp).difference =
          calculate_team_score data wp - calculate_team_score data lp ∧
      (2 ≤ (calculate_compensation data wp lp).difference →
        (calculate_compensation data wp lp).invalid = true ∧
        (calculate_compensation data wp lp).compensation = 0) ∧
      ((calculate_compensation data wp lp).difference = 1 →
        (calculate_compensation data wp lp).compensation = 0.5 ∧
        (calculate_compensation data wp lp).invalid = false) ∧
      ((calculate_compensation data wp lp).difference ≤ 0 →
        (calculate_compensation data wp lp).compensation = 0 ∧
        (calculate_compensation data wp lp).invalid = false)) ∧
    ((∃ p ∈ wp ++ lp, p.name ≠ "" ∧ get_player_horse_level data p.name = "") →
      (calculate_compensation data wp lp).compensation = 0 ∧
      (calculate_compensation data wp lp).invalid = false) := by
  constructor
  · intro hall
    have hc : all_classified_check data (wp ++ lp) = true :=
      (all_classified_iff _ _).2 hall
    have hrw : calculate_compensation data wp lp =
        { winner_score := calculate_team_score data wp,
          loser_score := calculate_team_score data lp,
          difference := calculate_team_score data wp - calculate_team_score data lp,
          compensation :=
            (if 0 < calculate_team_score data wp - calculate_team_score data lp then
              if 2 ≤ calculate_team_score data wp - calculate_team_score data lp then
                ((0 : Rat), true)
              else ((0.5 : Rat), false)
            else ((0 : Rat), false)).1,
          invalid :=
            (if 0 < calculate_team_score data wp - calculate_team_score data lp then
              if 2 ≤ calculate_team_score data wp - calculate_team_score data lp then
                ((0 : Rat), true)
              else ((0.5 : Rat), false)
            else ((0 : Rat), false)).2,
          all_classified := true } := by
      simp only [calculate_compensation, hc, Bool.not_true, if_false, Bool.false_eq_true]
    rw [hrw]
    dsimp only
    split_ifs with h1 h2 <;>
      refine ⟨rfl, fun h => ?_, fun h => ?_, fun h => ?_⟩ <;>
      first
        | exact ⟨rfl, rfl⟩
        | omega
  · rintro ⟨p, hp, hname, hlevel⟩
    have hc : all_classified_check data (wp ++ lp) = false := by
      rcases hb : all_classified_check data (wp ++ lp) with _ | _
      · rfl
      · exact absurd hlevel ((all_classified_iff data (wp ++ lp)).1 hb p hp hname)
    simp [calculate_compensation, hc]

/-- Witness for C1 at a concrete snapshot in which both rosters are
classified through overrides and the imbalance is exactly one point. -/
theorem claim_C1_witness :
    (∀ p ∈ ([⟨"w", []⟩] ++ [⟨"l", []⟩] : List PlayerAppearance), p.name ≠ "" →
      get_player_horse_level ⟨[], [], [("w", "特等"), ("l", "中等")]⟩ p.name ≠ "") ∧
    ((calculate_compensation ⟨[], [], [("w", "特等"), ("l", "中等")]⟩
        [⟨"w", []⟩] [⟨"l", []⟩]).difference = 1 →
      (calculate_compensation ⟨[], [], [("w", "特等"), ("l", "中等")]⟩
        [⟨"w", []⟩] [⟨"l", []⟩]).compensation = 0.5 ∧
      (calculate_compensation ⟨[], [], [("w", "特等"), ("l", "中等")]⟩
        [⟨"w", []⟩] [⟨"l", []⟩]).invalid = false) :=
  ⟨by decide, ((claim_C1 ⟨[], [], [("w", "特等"), ("l", "中等")]⟩
      [⟨"w", []⟩] [⟨"l", []⟩]).1 (by decide)).2.2.1⟩

/-! ## Claim C2: per-player score deltas -/

theorem apply_score_rules_won (p : PlayerRecord) (tags : List String) (bonus : Rat) :
    (apply_score_rules p tags true bonus).wins = p.wins + 1 ∧
    (apply_score_rules p tags true bonus).losses = p.losses ∧
    (apply_score_rules p tags true bonus).total_games = p.total_games + 1 ∧
    (apply_score_rules p tags true bonus).score =
      p.score + 1 + (if "MVP" ∈ tags then (0.5 : Rat) else 0) +
        (if 0 < bonus then bonus else 0) := by
  have hm : tags.contains "MVP" = decide ("MVP" ∈ tags) := by
    by_cases h : "MVP" ∈ tags <;> simp [h]
  by_cases h1 : "MVP" ∈ tags <;> by_cases h2 : "SVP" ∈ tags <;>
    by_cases h3 : "僵" ∈ tags <;> by_cases hb : 0 < bonus <;>
    simp [apply_score_rules, hm, h1, h2, h3, hb] <;> ring

theorem apply_score_rules_lost (p : PlayerRecord) (tags : List String) (bonus : Rat) :
    (apply_score_rules p tags false bonus).losses = p.losses + 1 ∧
    (apply_score_rules p tags false bonus).wins = p.wins ∧
    (apply_score_rules p tags false bonus).total_games = p.total_games + 1 ∧
    (apply_score_rules p tags false bonus).score =
      p.score - 1 + (if "SVP" ∈ tags then (0.5 : Rat) else 0) -
        (if "僵" ∈ tags then (0.5 : Rat) else 0) + (if 0 < bonus then bonus else 0) := by
  have hs : tags.contains "SVP" = decide ("SVP" ∈ tags) := by
    by_cases h : "SVP" ∈ tags <;> simp [h]
  have hj : tags.contains "僵" = decide ("僵" ∈ tags) := by
    by_cases h : "僵" ∈ tags <;> simp [h]
  by_cases h1 : "MVP" ∈ tags <;> by_cases h2 : "SVP" ∈ tags <;>
    by_cases h3 : "僵" ∈ tags <;> by_cases hb : 0 < bonus <;>
    simp [apply_score_rules, hs, hj, h1, h2, h3, hb] <;> ring

/-- Claim C2: one appearance applied by `update_player_stats` increments
`wins` and adds `+1` (plus `0.5` for MVP) on a win, increments `losses` and
adds `−1` (plus `0.5` for SVP, minus `0.5` for the frozen tag) on a loss, and
adds the compensation bonus whenever it is positive, in either branch; in
particular a winning MVP gains `+1.5`, a losing SVP gains `−0.5`, and a
losing SVP also tagged frozen gains `−1`. -/
theorem claim_C2 (data : GameData) (player : PlayerAppearance) (won : Bool)
    (opponents : List PlayerAppearance) (bonus : Rat) (hname : player.name ≠ "") :
    (won = true →
      (player_before (update_player_stats data player won opponents bonus).players
          player.name).wins =
        (player_before data.players player.name).wins + 1 ∧
      (player_before (update_player_stats data player won opponents bonus).players
          player.name).score =
        (player_before data.players player.name).score + 1 +
          (if "MVP" ∈ player.tags then (0.5 : Rat) else 0) +
          (if 0 < bonus then bonus else 0)) ∧
    (won = false →
      (player_before (update_player_stats data player won opponents bonus).players
          player.name).losses =
        (player_before data.players player.name).losses + 1 ∧
      (player_before (update_player_stats data player won opponents bonus).players
          player.name).score =
        (player_before data.players player.name).score - 1 +
          (if "SVP" ∈ player.tags then (0.5 : Rat) else 0) -
          (if "僵" ∈ player.tags then (0.5 : Rat) else 0) +
          (if 0 < bonus then bonus else 0)) ∧
    (won = true ∧ "MVP" ∈ player.tags ∧ bonus = 0 →
      (player_before (update_player_stats data player won opponents bonus).players
          player.name).score =
        (player_before data.players player.name).score + 1.5) ∧
    (won = false ∧ "SVP" ∈ player.tags ∧ "僵" ∉ player.tags ∧ bonus = 0 →
      (player_before (update_player_stats data player won opponents bonus).players
          player.name).score =
        (player_before data.players player.name).score - 0.5) ∧
    (won = false ∧ "SVP" ∈ player.tags ∧ "僵" ∈ player.tags ∧ bonus = 0 →
      (player_before (update_player_stats data player won opponents bonus).players
          player.name).score =
        (player_before data.players player.name).score - 1) := by
  have heff : player_before (update_player_stats data player won opponents bonus).players
      player.name =
      apply_score_rules (player_before data.players player.name) player.tags won bonus := by
    show player_before (update_player_stats_players data.players player won bonus)
        player.name = _
    rw [player_before, update_pp_effect data.players player won bonus hname]
    rfl
  rw [heff]
  refine ⟨?_, ?_, ?_, ?_, ?_⟩
  · rintro rfl
    exact ⟨(apply_score_rules_won _ _ _).1, (apply_score_rules_won _ _ _).2.2.2⟩
  · rintro rfl
    exact ⟨(apply_score_rules_lost _ _ _).1, (apply_score_rules_lost _ _ _).2.2.2⟩
  · rintro ⟨rfl, hm, rfl⟩
    rw [(apply_score_rules_won _ _ _).2.2.2]
    simp [hm] <;> ring
  · rintro ⟨rfl, hs, hj, rfl⟩
    rw [(apply_score_rules_lost _ _ _).2.2.2]
    simp [hs, hj] <;> ring
  · rintro ⟨rfl, hs, hj, rfl⟩
    rw [(apply_score_rules_lost _ _ _).2.2.2]
    simp [hs, hj] <;> ring

/-- Witness for C2: a winning MVP at a concrete snapshot. -/
theorem claim_C2_witness :
    (("x" : String) ≠ "") ∧
    ((player_before (update_player_stats ⟨[], [], []⟩ ⟨"x", ["MVP"]⟩ true [] 0).players
        "x").wins =
      (player_before ([] : PMap) "x").wins + 1 ∧
    (player_before (update_player_stats ⟨[], [], []⟩ ⟨"x", ["MVP"]⟩ true [] 0).players
        "x").score =
      (player_before ([] : PMap) "x").score + 1 +
        (if "MVP" ∈ ["MVP"] then (0.5 : Rat) else 0) +
        (if (0 : Rat) < 0 then (0 : Rat) else 0)) :=
  ⟨by decide,
    (claim_C2 ⟨[], [], []⟩ ⟨"x", ["MVP"]⟩ true [] 0 (by decide)).1 rfl⟩

/-! ## Claim C8: not-found signals leave the ledger untouched -/

theorem findIdx?_eq_none_of_all {α : Type} (l : List α) (p : α → Bool) (i : Nat)
    (h : ∀ x ∈ l, p x = false) : l.findIdx? p i = none := by
  induction l generalizing i with
  | nil => rfl
  | cons a rest ih =>
    rw [List.findIdx?_cons, h a (List.mem_cons_self _ _)]
    simp only [Bool.false_eq_true, if_false]
    exact ih _ (fun x hx => h x (List.mem_cons_of_mem _ hx))

/-- Claim C8: when no stored match carries the requested id, `delete_match`
and `update_match` both return the untouched document together with the
not-found signal `false`. -/
theorem claim_C8 (data : GameData) (mid : Nat) (new_md : MatchRecord)
    (h : ∀ m ∈ data.match_list, m.id ≠ mid) :
    delete_match data mid = (data, false) ∧
    update_match data mid new_md = (data, false) := by
  have hfind : data.match_list.find? (fun m => m.id == mid) = none :=
    List.find?_eq_none.2 (fun m hm => by simp [h m hm])
  have hfi : data.match_list.findIdx? (fun m => m.id == mid) = none :=
    findIdx?_eq_none_of_all _ _ _ (fun m hm => by simp [h m hm])
  constructor
  · simp [delete_match, hfind]
  · simp [update_match, hfi]

/-- Witness for C8: a one-match ledger queried with an absent id. -/
theorem claim_C8_witness :
    (∀ m ∈ ([⟨1, "天辉", [], [], ⟨0, 0, 0, 0, false, false⟩⟩] : List MatchRecord),
      m.id ≠ 7) ∧
    (delete_match ⟨[⟨1, "天辉", [], [], ⟨0, 0, 0, 0, false, false⟩⟩], [], []⟩ 7 =
      (⟨[⟨1, "天辉", [], [], ⟨0, 0, 0, 0, false, false⟩⟩], [], []⟩, false) ∧
    update_match ⟨[⟨1, "天辉", [], [], ⟨0, 0, 0, 0, false, false⟩⟩], [], []⟩ 7
        ⟨9, "夜魔", [], [], ⟨0, 0, 0, 0, false, false⟩⟩ =
      (⟨[⟨1, "天辉", [], [], ⟨0, 0, 0, 0, false, false⟩⟩], [], []⟩, false)) :=
  ⟨by decide,
    claim_C8 ⟨[⟨1, "天辉", [], [], ⟨0, 0, 0, 0, false, false⟩⟩], [], []⟩ 7
      ⟨9, "夜魔", [], [], ⟨0, 0, 0, 0, false, false⟩⟩ (by decide)⟩

/-! ## Claim C7: classifier edge cases -/

/-- Counterexample to C7 as stated: a snapshot with one recorded player and
zero qualified players; the public classifier returns the empty tier for the
no-override player, not the claimed "mid" default. -/
theorem claim_C7_counterexample :
    alookup (⟨[], [("P", initPlayer "P")], []⟩ : GameData).horse_overrides "P" = none ∧
    qualified_players ⟨[], [("P", initPlayer "P")], []⟩ = [] ∧
    get_player_horse_level ⟨[], [("P", initPlayer "P")], []⟩ "P" = "" ∧
    get_player_horse_level ⟨[], [("P", initPlayer "P")], []⟩ "P" ≠ "中等" := by
  decide

/-- Claim C7 as amended: the zero-qualified "default to mid" lives in the
internal auto-classifier and is unreachable through the public classifier; for
a player with no override, the public classifier returns the empty tier
whenever the player is absent or has fewer than 20 games — in particular
whenever there are zero qualified players — and the empty tier is distinct
from "mid". -/
theorem claim_C7_amended (data : GameData) (name : String)
    (hov : alookup data.horse_overrides name = none) :
    (qualified_players data = [] → calculate_auto_horse_level data name = "中等") ∧
    ((alookup data.players name = none ∨
      ∃ p, alookup data.players name = some p ∧ p.total_games < 20) →
      get_player_horse_level data name = "") ∧
    (qualified_players data = [] → get_player_horse_level data name = "") ∧
    ("" : String) ≠ "中等" := by
  refine ⟨?_, ?_, ?_, by decide⟩
  · intro hq
    simp [calculate_auto_horse_level, hq]
  · rintro (hn | ⟨p, hp, hlt⟩)
    · simp [get_player_horse_level, hov, hn]
    · simp [get_player_horse_level, hov, hp, hlt]
  · intro hq
    rcases hn : alookup data.players name with _ | p
    · simp [get_player_horse_level, hov, hn]
    · by_cases hlt : p.total_games < 20
      · simp [get_player_horse_level, hov, hn, hlt]
      · exfalso
        have hmem : (name, p) ∈ data.players := alookup_some_mem hn
        have hq' : (name, p.score) ∈ qualified_players data := by
          unfold qualified_players
          refine List.mem_map.2 ⟨(name, p), ?_, rfl⟩
          refine List.mem_filter.2 ⟨hmem, ?_⟩
          simp
          omega
        rw [hq] at hq'
        simp at hq'

/-- Witness for the amended C7 at the concrete one-player snapshot. -/
theorem claim_C7_witness :
    (alookup (⟨[], [("P", initPlayer "P")], []⟩ : GameData).horse_overrides "P" = none ∧
     qualified_players ⟨[], [("P", initPlayer "P")], []⟩ = []) ∧
    (calculate_auto_horse_level ⟨[], [("P", initPlayer "P")], []⟩ "P" = "中等" ∧
     get_player_horse_level ⟨[], [("P", initPlayer "P")], []⟩ "P" = "") :=
  ⟨⟨by decide, by decide⟩,
   ⟨(claim_C7_amended ⟨[], [("P", initPlayer "P")], []⟩ "P" (by decide)).1 (by decide),
    (claim_C7_amended ⟨[], [("P", initPlayer "P")], []⟩ "P" (by decide)).2.2.1 (by decide)⟩⟩

/-! ## Claim C5: full recompute replays stored verdicts -/

theorem foldl_apply_match_core (ms : List MatchRecord) (d : GameData) :
    ms.foldl apply_match_core d =
      { d with players := ms.foldl apply_match_players d.players } := by
  induction ms generalizing d with
  | nil => rfl
  | cons m rest ih =>
    rw [List.foldl_cons, List.foldl_cons, ih]
    rfl

theorem recalc_players (d : GameData) :
    recalculate_all_stats d = { d with players := replay_players d.match_list } := by
  rw [recalculate_all_stats, foldl_apply_match_core]
  rfl

/-- Claim C5: the recomputation run by `delete_match` / `update_match`
rebuilds the players mapping from scratch by replaying the stored matches in
order; the replay reads neither the previous players map nor the overrides
(the inputs a fresh tier derivation would consume), and the bonus applied for
each replayed match is that match's stored verdict compensation, whatever
value was stored. -/
theorem claim_C5 :
    (∀ d : GameData,
      (recalculate_all_stats d).players = replay_players d.match_list ∧
      (recalculate_all_stats d).match_list = d.match_list) ∧
    (∀ (ms : List MatchRecord) (ps ps' : PMap) (ov ov' : List (String × String)),
      (recalculate_all_stats ⟨ms, ps, ov⟩).players =
        (recalculate_all_stats ⟨ms, ps', ov'⟩).players) ∧
    (∀ c : Rat,
      (player_before
        (recalculate_all_stats
          ⟨[⟨1, "天辉", [], [⟨"L", []⟩], ⟨0, 0, 0, c, false, true⟩⟩], [], []⟩).players
        "L").score = -1 + (if 0 < c then c else 0)) ∧
    (∀ (d : GameData) (mid : Nat), (delete_match d mid).2 = true →
      (delete_match d mid).1.players = replay_players ((delete_match d mid).1.match_list) ∧
      (delete_match d mid).1.match_list =
        d.match_list.filter (fun m => !(m.id == mid))) ∧
    (∀ (d : GameData) (mid : Nat) (md : MatchRecord), (update_match d mid md).2 = true →
      (update_match d mid md).1.players =
        replay_players ((update_match d mid md).1.match_list)) := by
  refine ⟨?_, ?_, ?_, ?_, ?_⟩
  · intro d
    rw [recalc_players]
    exact ⟨rfl, rfl⟩
  · intro ms ps ps' ov ov'
    rw [recalc_players, recalc_players]
  · intro c
    rw [recalc_players]
    by_cases hc : 0 < c <;>
      simp [replay_players, apply_match_players, update_player_stats_players,
        update_teammate_opponent_stats_players, roster_names, team_outer,
        teammate_inner, opponent_inner, player_before, alookup, aupdate,
        apply_score_rules, initPlayer, hc] <;>
      ring
  · intro d mid hdel
    by_cases h : (d.match_list.find? (fun m => m.id == mid)).isNone = true
    · unfold delete_match at hdel
      rw [if_pos h] at hdel
      simp at hdel
    · unfold delete_match
      rw [if_neg h]
      dsimp only
      rw [recalc_players]
      exact ⟨rfl, rfl⟩
  · intro d mid md hupd
    rcases hfi : d.match_list.findIdx? (fun m => m.id == mid) with _ | i
    · unfold update_match at hupd
      rw [hfi] at hupd
      simp at hupd
    · unfold update_match
      rw [hfi]
      dsimp only
      rw [recalc_players]

/-- Witness for C5 at a stored compensation of 2 (a value no fresh derivation
produces) and at a concrete successful delete. -/
theorem claim_C5_witness :
    ((player_before
        (recalculate_all_stats
          ⟨[⟨1, "天辉", [], [⟨"L", []⟩], ⟨0, 0, 0, 2, false, true⟩⟩], [], []⟩).players
        "L").score = -1 + (if (0 : Rat) < 2 then (2 : Rat) else 0)) ∧
    ((delete_match ⟨[⟨1, "天辉", [], [⟨"L", []⟩], ⟨0, 0, 0, 2, false, true⟩⟩], [], []⟩ 1).2
        = true ∧
      (delete_match ⟨[⟨1, "天辉", [], [⟨"L", []⟩], ⟨0, 0, 0, 2, false, true⟩⟩], [], []⟩ 1).1.match_list
        = ([⟨1, "天辉", [], [⟨"L", []⟩], ⟨0, 0, 0, 2, false, true⟩⟩] : List MatchRecord).filter
            (fun m => !(m.id == 1))) :=
  ⟨claim_C5.2.2.1 2,
   ⟨by decide,
    (claim_C5.2.2.2.1 ⟨[⟨1, "天辉", [], [⟨"L", []⟩], ⟨0, 0, 0, 2, false, true⟩⟩], [], []⟩ 1
      (by decide)).2⟩⟩

/-! ## Claim C4: delete-then-re-add -/

/-- The first replayed-then-deleted scenario: a one-on-one opening match. -/
def cxInput1 : MatchInput := ⟨"天辉", [⟨"A", []⟩], [⟨"C", []⟩]⟩

/-- Twenty auxiliary matches that qualify player `A` (and four fillers). -/
def cxAux : MatchInput :=
  ⟨"天辉", [⟨"A", []⟩, ⟨"D1", []⟩, ⟨"D2", []⟩, ⟨"D3", []⟩, ⟨"D4", []⟩], [⟨"E", []⟩]⟩

/-- Starting snapshot: `C` carries a mid-tier override, nobody else is
classified. -/
def cxD0 : GameData := ⟨[], [], [("C", "中等")]⟩

/-- Ledger after recording the opening match and the twenty auxiliary
matches. -/
def cxOrig : GameData :=
  (List.replicate 20 cxAux).foldl (fun d i => (add_match d i).1) (add_match cxD0 cxInput1).1

/-- Ledger after deleting the opening match (id 1). -/
def cxDel : GameData := (delete_match cxOrig 1).1

/-- Ledger after re-adding an equivalent opening record (same winner,
rosters and tags). -/
def cxRe : GameData := (add_match cxDel cxInput1).1

set_option maxRecDepth 100000 in
/-- Counterexample to C4 as stated: deleting the opening match and re-adding
an equivalent record does not reproduce the aggregate statistics.  At the
original insertion `A` was unclassified, so the stored verdict carried no
compensation and loser `C` ended at score −1; at re-add time `A` has become
qualified elite, the freshly derived verdict grants 0.5 compensation, and `C`
ends at −0.5. -/
theorem claim_C4_counterexample :
    (alookup cxOrig.players "C").map PlayerRecord.score = some (-1) ∧
    (alookup cxRe.players "C").map PlayerRecord.score = some (-(1 / 2)) ∧
    (alookup cxRe.players "C").map PlayerRecord.score ≠
      (alookup cxOrig.players "C").map PlayerRecord.score := by
  have h1 : (alookup cxOrig.players "C").map PlayerRecord.score = some (-1) := by
    with_unfolding_all decide
  have h2 : (alookup cxRe.players "C").map PlayerRecord.score = some (-(1 / 2)) := by
    with_unfolding_all decide
  refine ⟨h1, h2, ?_⟩
  rw [h1, h2]
  with_unfolding_all decide

/-- Claim C4 as amended: the replay round-trip holds for the most recently
added match.  From a document whose players map is consistent with its match
list and in which the fresh id is unused, adding a match, deleting it again,
and re-adding an equivalent record reproduces the entire document exactly.
Deleting a non-final match can change statistics, because `add_match`
recomputes the verdict from current tiers instead of reusing the stored
one — see the counterexample. -/
theorem claim_C4_amended (d : GameData) (inp : MatchInput)
    (hcons : replay_players d.match_list = d.players)
    (hid : ∀ m ∈ d.match_list, m.id ≠ d.match_list.length + 1) :
    (delete_match (add_match d inp).1 (d.match_list.length + 1)).2 = true ∧
    (add_match (delete_match (add_match d inp).1 (d.match_list.length + 1)).1 inp).1 =
      (add_match d inp).1 := by
  have h1 : (add_match d inp).1 =
      ⟨d.match_list ++ [add_md d inp], apply_match_players d.players (add_md d inp),
        d.horse_overrides⟩ := rfl
  have hmdid : (add_md d inp).id = d.match_list.length + 1 := rfl
  have hfind : ¬ (((add_match d inp).1.match_list.find?
      (fun m => m.id == d.match_list.length + 1)).isNone = true) := by
    intro hno
    rw [Option.isNone_iff_eq_none, List.find?_eq_none] at hno
    have hmem : add_md d inp ∈ (add_match d inp).1.match_list := by
      rw [h1]
      exact List.mem_append_right _ (List.mem_cons_self _ _)
    exact hno _ hmem (by simp [hmdid])
  have hfilter : (add_match d inp).1.match_list.filter
      (fun m => !(m.id == d.match_list.length + 1)) = d.match_list := by
    rw [h1]
    show (d.match_list ++ [add_md d inp]).filter _ = _
    rw [List.filter_append]
    have hl : d.match_list.filter (fun m => !(m.id == d.match_list.length + 1)) =
        d.match_list :=
      List.filter_eq_self.2 (fun m hm => by simp [hid m hm])
    have hr : ([add_md d inp] : List MatchRecord).filter
        (fun m => !(m.id == d.match_list.length + 1)) = [] := by
      simp [hmdid]
    rw [hl, hr, List.append_nil]
  have hdel : (delete_match (add_match d inp).1 (d.match_list.length + 1)).1 = d := by
    unfold delete_match
    rw [if_neg hfind]
    dsimp only
    rw [recalc_players]
    dsimp only
    rw [hfilter, hcons]
    rfl
  refine ⟨?_, ?_⟩
  · unfold delete_match
    rw [if_neg hfind]
  · rw [hdel]

/-- Witness for the amended C4: round-tripping the only match of a fresh
document. -/
theorem claim_C4_witness :
    (replay_players ([] : List MatchRecord) = ([] : PMap)) ∧
    ((delete_match (add_match ⟨[], [], []⟩ ⟨"天辉", [⟨"a", []⟩], [⟨"b", []⟩]⟩).1 1).2 =
      true ∧
     (add_match (delete_match (add_match ⟨[], [], []⟩
          ⟨"天辉", [⟨"a", []⟩], [⟨"b", []⟩]⟩).1 1).1
        ⟨"天辉", [⟨"a", []⟩], [⟨"b", []⟩]⟩).1 =
      (add_match ⟨[], [], []⟩ ⟨"天辉", [⟨"a", []⟩], [⟨"b", []⟩]⟩).1) :=
  ⟨rfl, claim_C4_amended ⟨[], [], []⟩ ⟨"天辉", [⟨"a", []⟩], [⟨"b", []⟩]⟩ rfl
    (fun m hm => absurd hm (List.not_mem_nil m))⟩

/-! ## Claim C3: percentile tier classification -/

theorem findIdx?_eq_findIdx {α : Type} (l : List α) (p : α → Bool) (j : Nat)
    (h : l.findIdx? p = some j) : l.findIdx p = j := by
  induction l generalizing j with
  | nil => simp [List.findIdx?] at h
  | cons a rest ih =>
    rw [List.findIdx?_cons] at h
    by_cases hp : p a
    · rw [hp] at h
      simp at h
      simp [List.findIdx_cons, hp, h]
    · simp only [hp, Bool.false_eq_true, if_false, List.findIdx?_succ] at h
      rcases ho : rest.findIdx? p with _ | j'
      · rw [ho] at h; simp at h
      · rw [ho] at h
        simp at h
        rw [List.findIdx_cons]
        simp [hp, ih j' ho, h]

theorem findIdx?_isSome_of_mem {α : Type} {l : List α} {p : α → Bool} {x : α}
    (hx : x ∈ l) (hp : p x = true) : (l.findIdx? p).isSome = true := by
  induction l with
  | nil => simp at hx
  | cons a rest ih =>
    rw [List.findIdx?_cons]
    by_cases ha : p a
    · simp [ha]
    · rcases List.mem_cons.1 hx with rfl | hx'
      · exact absurd hp ha
      · simp only [ha, Bool.false_eq_true, if_false, List.findIdx?_succ]
        rcases ho : rest.findIdx? p with _ | j
        · rw [ho] at ih; simp [ih hx'] at *
        · simp [ho]

/-- Modelled from the spec wording of §4.1 (for the C3 refinement check):
filter to the qualified players, sort by score descending with stable ties,
take the target's 1-based rank in the sorted list, and classify by
percentile = rank / qualifiedCount with the 0.20 / 0.80 thresholds. -/
def spec_auto_tier (data : GameData) (player_name : String) : String :=
  let qualified := qualified_players data
  let sorted := sortDesc qualified
  let rank : Nat := sorted.findIdx (fun q => q.1 == player_name) + 1
  let percentile : Rat := (rank : Rat) / (sorted.length : Rat)
  if percentile ≤ 0.2 then "特等"
  else if percentile ≤ 0.8 then "中等"
  else "自动"

/-- Twenty qualified players with pairwise distinct scores 20, 19, …, 1, in
document order `q0 … q19`. -/
def d20 : GameData :=
  ⟨[], (List.range 20).map (fun k =>
    ("q" ++ toString k,
      { initPlayer ("q" ++ toString k) with
          total_games := 20, score := ((20 - k : Nat) : Rat) })), []⟩

/-- Claim C3: for a qualified player with no override, the public classifier
computes exactly the spec's percentile algorithm (qualified filter, stable
descending sort, 1-based rank, 0.20 / 0.80 thresholds); in the concrete
20-player snapshot with distinct scores the top 4 come out elite, the middle
12 mid, and the bottom 4 auto/weak. -/
theorem claim_C3 (d : GameData) (name : String) (p : PlayerRecord)
    (hov : alookup d.horse_overrides name = none)
    (hp : alookup d.players name = some p)
    (h20 : 20 ≤ p.total_games) :
    get_player_horse_level d name = spec_auto_tier d name ∧
    (List.range 20).map (fun k => get_player_horse_level d20 ("q" ++ toString k)) =
      ["特等", "特等", "特等", "特等",
       "中等", "中等", "中等", "中等", "中等", "中等",
       "中等", "中等", "中等", "中等", "中等", "中等",
       "自动", "自动", "自动", "自动"] := by
  constructor
  · have hg : get_player_horse_level d name = calculate_auto_horse_level d name := by
      unfold get_player_horse_level
      rw [hov, hp]
      simp [Nat.not_lt.2 h20]
    have hq : (name, p.score) ∈ qualified_players d := by
      unfold qualified_players
      refine List.mem_map.2 ⟨(name, p), ?_, rfl⟩
      refine List.mem_filter.2 ⟨alookup_some_mem hp, ?_⟩
      simpa using h20
    have hs : (name, p.score) ∈ sortDesc (qualified_players d) :=
      ((List.perm_insertionSort _ _).mem_iff).2 hq
    have hsome : ((sortDesc (qualified_players d)).findIdx?
        (fun q => q.1 == name)).isSome = true :=
      findIdx?_isSome_of_mem hs (by simp)
    obtain ⟨i, hi⟩ := Option.isSome_iff_exists.1 hsome
    have hidx := findIdx?_eq_findIdx _ _ _ hi
    have hne : (qualified_players d).isEmpty = false := by
      rcases hqs : qualified_players d with _ | _
      · rw [hqs] at hq; simp at hq
      · rfl
    rw [hg]
    unfold calculate_auto_horse_level spec_auto_tier
    dsimp only
    rw [hne]
    simp only [Bool.false_eq_true, if_false]
    unfold rankOf
    rw [hi]
    dsimp only
    rw [hidx]
    have hnneg : ¬(((i : Int) + 1) = -1) := by omega
    rw [if_neg hnneg]
    have hcast : (((i : Int) + 1 : Int) : Rat) = ((i + 1 : Nat) : Rat) := by
      push_cast
      ring
    rw [hcast]
  · with_unfolding_all decide

/-- Witness for C3: the top-scored player of the 20-player snapshot. -/
theorem claim_C3_witness :
    (alookup d20.horse_overrides "q0" = none ∧
     alookup d20.players "q0" =
       some { initPlayer "q0" with total_games := 20, score := 20 } ∧
     20 ≤ ({ initPlayer "q0" with total_games := 20, score := 20 } :
       PlayerRecord).total_games) ∧
    get_player_horse_level d20 "q0" = spec_auto_tier d20 "q0" :=
  ⟨⟨by decide, by with_unfolding_all decide, by decide⟩,
   (claim_C3 d20 "q0" { initPlayer "q0" with total_games := 20, score := 20 }
     (by decide) (by with_unfolding_all decide) (by decide)).1⟩

/-! ## Scalar-field preservation through the relation-update phase -/

/-- The scalar statistics of a record (everything except the relation maps). -/
def scalars (p : PlayerRecord) : Nat × Nat × Nat × Rat × Nat × Nat × Nat :=
  (p.total_games, p.wins, p.losses, p.score, p.mvp_count, p.svp_count, p.jiang_count)

theorem apply_score_rules_counts (p : PlayerRecord) (tags : List String) (won : Bool)
    (bonus : Rat) :
    (apply_score_rules p tags won bonus).total_games = p.total_games + 1 ∧
    (apply_score_rules p tags won bonus).mvp_count =
      p.mvp_count + (if "MVP" ∈ tags then 1 else 0) ∧
    (apply_score_rules p tags won bonus).svp_count =
      p.svp_count + (if "SVP" ∈ tags then 1 else 0) ∧
    (apply_score_rules p tags won bonus).jiang_count =
      p.jiang_count + (if "僵" ∈ tags then 1 else 0) ∧
    (apply_score_rules p tags won bonus).teammates = p.teammates ∧
    (apply_score_rules p tags won bonus).opponents = p.opponents := by
  have hm : tags.contains "MVP" = decide ("MVP" ∈ tags) := by
    by_cases h : "MVP" ∈ tags <;> simp [h]
  have hs : tags.contains "SVP" = decide ("SVP" ∈ tags) := by
    by_cases h : "SVP" ∈ tags <;> simp [h]
  have hj : tags.contains "僵" = decide ("僵" ∈ tags) := by
    by_cases h : "僵" ∈ tags <;> simp [h]
  cases won <;> by_cases h1 : "MVP" ∈ tags <;> by_cases h2 : "SVP" ∈ tags <;>
    by_cases h3 : "僵" ∈ tags <;> by_cases hb : 0 < bonus <;>
    simp [apply_score_rules, hm, hs, hj, h1, h2, h3, hb]

theorem map_scalars_isSome {x y : Option PlayerRecord}
    (h : x.map scalars = y.map scalars) : x.isSome = y.isSome := by
  cases x <;> cases y <;> simp_all

theorem aupdate_map_scalars (f : PlayerRecord → PlayerRecord)
    (hf : ∀ p, scalars (f p) = scalars p) (l : PMap) (k k' : String) :
    (alookup (aupdate f l k) k').map scalars = (alookup l k').map scalars := by
  by_cases h : k' = k
  · subst h
    rw [alookup_aupdate_self]
    cases alookup l k' <;> simp [hf]
  · rw [alookup_aupdate_ne _ _ h]

theorem teammate_inner_scalars (s : String) (i : Nat) (won : Bool)
    (names : List String) :
    ∀ (j : Nat) (players : PMap) (k : String),
    (alookup (teammate_inner s i won j names players) k).map scalars =
      (alookup players k).map scalars := by
  induction names with
  | nil => intro j players k; rfl
  | cons n r ih =>
    intro j players k
    rw [show teammate_inner s i won j (n :: r) players =
        teammate_inner s i won (j + 1) r
          (if i ≠ j then
            aupdate (fun p => { p with teammates := bumpStat p.teammates n won }) players s
          else players) from rfl]
    rw [ih]
    by_cases hij : i ≠ j
    · rw [if_pos hij,
        aupdate_map_scalars
          (fun p => { p with teammates := bumpStat p.teammates n won })
          (fun p => rfl)]
    · rw [if_neg hij]

theorem opponent_inner_scalars (s : String) (won : Bool) (names : List String) :
    ∀ (players : PMap) (k : String),
    (alookup (opponent_inner s won names players) k).map scalars =
      (alookup players k).map scalars := by
  induction names with
  | nil => intro players k; rfl
  | cons n r ih =>
    intro players k
    rw [show opponent_inner s won (n :: r) players =
        opponent_inner s won r
          (aupdate (fun p => { p with opponents := bumpStat p.opponents n won }) players s)
      from rfl]
    rw [ih,
      aupdate_map_scalars
        (fun p => { p with opponents := bumpStat p.opponents n won })
        (fun p => rfl)]

theorem team_outer_scalars (team opp : List String) (won : Bool)
    (names : List String) :
    ∀ (i : Nat) (players : PMap) (k : String),
    (alookup (team_outer team opp won i names players) k).map scalars =
      (alookup players k).map scalars := by
  induction names with
  | nil => intro i players k; rfl
  | cons n r ih =>
    intro i players k
    rw [show team_outer team opp won i (n :: r) players =
        team_outer team opp won (i + 1) r
          (if (alookup players n).isNone then players
           else opponent_inner n won opp (teammate_inner n i won 0 team players))
      from rfl]
    rw [ih]
    by_cases hn : (alookup players n).isNone
    · rw [if_pos hn]
    · rw [if_neg hn, opponent_inner_scalars, teammate_inner_scalars]

theorem utos_scalars (players : PMap) (md : MatchRecord) (k : String) :
    (alookup (update_teammate_opponent_stats_players players md) k).map scalars =
      (alookup players k).map scalars := by
  unfold update_teammate_opponent_stats_players
  rw [team_outer_scalars, team_outer_scalars]

/-! ## Stats-phase fold lemmas -/

theorem upsp_empty (players : PMap) (p : PlayerAppearance) (won : Bool) (bonus : Rat)
    (h : p.name = "") : update_player_stats_players players p won bonus = players := by
  unfold update_player_stats_players
  rw [if_pos h]

theorem roster_names_cons (a : PlayerAppearance) (r : List PlayerAppearance) :
    roster_names (a :: r) =
      if a.name ≠ "" then a.name :: roster_names r else roster_names r := by
  unfold roster_names
  by_cases h : a.name = "" <;> simp [h, List.filter_cons]

theorem roster_names_append (l1 l2 : List PlayerAppearance) :
    roster_names (l1 ++ l2) = roster_names l1 ++ roster_names l2 := by
  unfold roster_names
  rw [List.filter_append, List.map_append]

theorem mem_roster_names {q : PlayerAppearance} {r : List PlayerAppearance}
    (hq : q ∈ r) (h : q.name ≠ "") : q.name ∈ roster_names r := by
  unfold roster_names
  exact List.mem_map.2 ⟨q, List.mem_filter.2 ⟨hq, by simp [h]⟩, rfl⟩

theorem fold_upsp_frame (ps : List PlayerAppearance) (won : Bool) (bonus : Rat) :
    ∀ (players : PMap) (k : String), (∀ q ∈ ps, q.name ≠ "" → q.name ≠ k) →
    alookup (ps.foldl (fun pl pp => update_player_stats_players pl pp won bonus) players) k
      = alookup players k := by
  induction ps with
  | nil => intro players k _; rfl
  | cons a r ih =>
    intro players k hk
    rw [List.foldl_cons]
    rw [ih _ _ (fun q hq => hk q (List.mem_cons_of_mem _ hq))]
    by_cases ha : a.name = ""
    · rw [upsp_empty _ _ _ _ ha]
    · exact update_pp_frame players a won bonus
        (fun hh => (hk a (List.mem_cons_self _ _) ha) hh.symm)

theorem fold_upsp_effect (ps : List PlayerAppearance) (won : Bool) (bonus : Rat) :
    ∀ (players : PMap) (q : PlayerAppearance), q ∈ ps → q.name ≠ "" →
    (roster_names ps).Nodup →
    alookup (ps.foldl (fun pl pp => update_player_stats_players pl pp won bonus) players)
        q.name =
      some (apply_score_rules (player_before players q.name) q.tags won bonus) := by
  induction ps with
  | nil => intro players q hq _ _; simp at hq
  | cons a r ih =>
    intro players q hq hname hnd
    rcases List.mem_cons.1 hq with rfl | hq'
    · rw [List.foldl_cons]
      have hfr : ∀ x ∈ r, x.name ≠ "" → x.name ≠ q.name := by
        intro x hx hxname heq
        rw [roster_names_cons, if_pos hname] at hnd
        exact (List.nodup_cons.1 hnd).1 (heq ▸ mem_roster_names hx hxname)
      rw [fold_upsp_frame r won bonus _ _ hfr]
      exact update_pp_effect players q won bonus hname
    · rw [List.foldl_cons]
      have hnd' : (roster_names r).Nodup := by
        rw [roster_names_cons] at hnd
        by_cases ha : a.name = ""
        · simpa [ha] using hnd
        · rw [if_pos ha] at hnd
          exact (List.nodup_cons.1 hnd).2
      rw [ih _ q hq' hname hnd']
      have hla : alookup (update_player_stats_players players a won bonus) q.name =
          alookup players q.name := by
        by_cases ha : a.name = ""
        · rw [upsp_empty _ _ _ _ ha]
        · refine update_pp_frame players a won bonus ?_
          intro heq
          rw [roster_names_cons, if_pos ha] at hnd
          exact (List.nodup_cons.1 hnd).1 (heq ▸ mem_roster_names hq' hname)
      rw [player_before, player_before, hla]

theorem upsp_present_mono (players : PMap) (p : PlayerAppearance) (won : Bool)
    (bonus : Rat) (k : String) (h : (alookup players k).isSome = true) :
    (alookup (update_player_stats_players players p won bonus) k).isSome = true := by
  by_cases hp : p.name = ""
  · rw [upsp_empty _ _ _ _ hp]; exact h
  · by_cases hk : k = p.name
    · subst hk
      rw [update_pp_effect _ _ _ _ hp]
      rfl
    · rw [update_pp_frame _ _ _ _ hk]
      exact h

theorem upsp_present_self (players : PMap) (p : PlayerAppearance) (won : Bool)
    (bonus : Rat) (h : p.name ≠ "") :
    (alookup (update_player_stats_players players p won bonus) p.name).isSome = true := by
  rw [update_pp_effect _ _ _ _ h]
  rfl

theorem fold_upsp_mono (ps : List PlayerAppearance) (won : Bool) (bonus : Rat) :
    ∀ (players : PMap) (k : String), (alookup players k).isSome = true →
    (alookup (ps.foldl (fun pl pp => update_player_stats_players pl pp won bonus) players)
      k).isSome = true := by
  induction ps with
  | nil => intro players k h; exact h
  | cons a r ih =>
    intro players k h
    rw [List.foldl_cons]
    exact ih _ _ (upsp_present_mono _ _ _ _ _ h)

theorem fold_upsp_present (ps : List PlayerAppearance) (won : Bool) (bonus : Rat) :
    ∀ (players : PMap) (k : String), k ∈ roster_names ps →
    (alookup (ps.foldl (fun pl pp => update_player_stats_players pl pp won bonus) players)
      k).isSome = true := by
  induction ps with
  | nil => intro players k h; simp [roster_names] at h
  | cons a r ih =>
    intro players k h
    rw [roster_names_cons] at h
    rw [List.foldl_cons]
    by_cases ha : a.name = ""
    · rw [if_neg (fun hh => hh ha)] at h
      exact ih _ _ h
    · rw [if_pos ha] at h
      rcases List.mem_cons.1 h with rfl | h'
      · exact fold_upsp_mono r won bonus _ _ (upsp_present_self players a won bonus ha)
      · exact ih _ _ h'

/-! ## Claim C10: unknown winner label means both teams lose -/

theorem map_scalars_some {x : Option PlayerRecord} {q : PlayerRecord}
    (h : x.map scalars = some (scalars q)) :
    ∃ p, x = some p ∧ scalars p = scalars q := by
  cases x with
  | none => simp at h
  | some p =>
    refine ⟨p, rfl, ?_⟩
    simpa using h

theorem scalars_fields {p q : PlayerRecord} (h : scalars p = scalars q) :
    p.total_games = q.total_games ∧ p.wins = q.wins ∧ p.losses = q.losses ∧
    p.score = q.score ∧ p.mvp_count = q.mvp_count ∧ p.svp_count = q.svp_count ∧
    p.jiang_count = q.jiang_count := by
  unfold scalars at h
  simp only [Prod.mk.injEq] at h
  tauto

/-- Claim C10: when the winner label is neither team label, both rosters are
treated as losing — every named player (rosters assumed duplicate-free) gets
`totalGames` and `losses` incremented, `wins` untouched, and the score delta
of a loser, including the stored compensation (computed with the dire roster
in winner position) whenever it is positive, on both teams. -/
theorem claim_C10 (d : GameData) (inp : MatchInput)
    (hw1 : inp.winner ≠ "天辉") (hw2 : inp.winner ≠ "夜魔")
    (hnd : (roster_names (inp.radiant_players ++ inp.dire_players)).Nodup) :
    (add_match d inp).2.compensation_info =
      calculate_compensation d inp.dire_players inp.radiant_players ∧
    ∀ q ∈ inp.radiant_players ++ inp.dire_players, q.name ≠ "" →
      (alookup (add_match d inp).1.players q.name).isSome = true ∧
      (player_before (add_match d inp).1.players q.name).total_games =
        (player_before d.players q.name).total_games + 1 ∧
      (player_before (add_match d inp).1.players q.name).losses =
        (player_before d.players q.name).losses + 1 ∧
      (player_before (add_match d inp).1.players q.name).wins =
        (player_before d.players q.name).wins ∧
      (player_before (add_match d inp).1.players q.name).score =
        (player_before d.players q.name).score - 1 +
          (if "SVP" ∈ q.tags then (0.5 : Rat) else 0) -
          (if "僵" ∈ q.tags then (0.5 : Rat) else 0) +
          (if 0 < (calculate_compensation d inp.dire_players
              inp.radiant_players).compensation
           then (calculate_compensation d inp.dire_players
              inp.radiant_players).compensation
           else 0) := by
  have hwb1 : (inp.winner == "天辉") = false := by
    simp [hw1]
  have hwb2 : (inp.winner == "夜魔") = false := by
    simp [hw2]
  have hmd : add_md d inp =
      { id := d.match_list.length + 1, winner := inp.winner,
        radiant_players := inp.radiant_players, dire_players := inp.dire_players,
        compensation_info :=
          calculate_compensation d inp.dire_players inp.radiant_players } := by
    unfold add_md
    rw [hwb1]
    rfl
  have hcomp : (add_md d inp).compensation_info.compensation =
      (calculate_compensation d inp.dire_players inp.radiant_players).compensation := by
    rw [hmd]
  rw [roster_names_append] at hnd
  obtain ⟨hndR, hndD, hdisj⟩ := List.nodup_append.1 hnd
  refine ⟨by rw [show (add_match d inp).2.compensation_info =
      (add_md d inp).compensation_info from rfl, hmd], ?_⟩
  intro q hq hqname
  have hpl : (add_match d inp).1.players =
      update_teammate_opponent_stats_players
        (inp.dire_players.foldl
          (fun ps p => update_player_stats_players ps p ((add_md d inp).winner == "夜魔")
            (if !((add_md d inp).winner == "夜魔") &&
                decide (0 < (add_md d inp).compensation_info.compensation) then
              (add_md d inp).compensation_info.compensation else 0))
          (inp.radiant_players.foldl
            (fun ps p => update_player_stats_players ps p
              ((add_md d inp).winner == "天辉")
              (if !((add_md d inp).winner == "天辉") &&
                  decide (0 < (add_md d inp).compensation_info.compensation) then
                (add_md d inp).compensation_info.compensation else 0))
            d.players))
        (add_md d inp) := rfl
  have hwmd : (add_md d inp).winner = inp.winner := rfl
  have hscal : (alookup (add_match d inp).1.players q.name).map scalars =
      some (scalars (apply_score_rules (player_before d.players q.name) q.tags false
        (if decide (0 < (calculate_compensation d inp.dire_players
            inp.radiant_players).compensation) then
          (calculate_compensation d inp.dire_players inp.radiant_players).compensation
         else 0))) := by
    rcases List.mem_append.1 hq with hqr | hqd
    · have hframe : ∀ x ∈ inp.dire_players, x.name ≠ "" → x.name ≠ q.name := by
        intro x hx hxname heq
        exact (hdisj (mem_roster_names hqr hqname)) (heq ▸ mem_roster_names hx hxname)
      rw [hpl, utos_scalars, fold_upsp_frame _ _ _ _ _ hframe,
        fold_upsp_effect _ _ _ _ q hqr hqname hndR]
      rw [hwmd, hwb1, hcomp]
      simp only [Bool.not_false, Bool.true_and]
      rfl
    · have heq0 : alookup (inp.radiant_players.foldl
          (fun ps p => update_player_stats_players ps p
            ((add_md d inp).winner == "天辉")
            (if !((add_md d inp).winner == "天辉") &&
                decide (0 < (add_md d inp).compensation_info.compensation) then
              (add_md d inp).compensation_info.compensation else 0))
          d.players) q.name = alookup d.players q.name := by
        refine fold_upsp_frame _ _ _ _ _ ?_
        intro x hx hxname heq
        exact (List.disjoint_right.1 hdisj (mem_roster_names hqd hqname))
          (heq ▸ mem_roster_names hx hxname)
      rw [hpl, utos_scalars, fold_upsp_effect _ _ _ _ q hqd hqname hndD]
      rw [player_before, heq0, ← player_before]
      rw [hwmd, hwb2, hcomp]
      simp only [Bool.not_false, Bool.true_and]
      rfl
  obtain ⟨pr, hpr, hprs⟩ := map_scalars_some hscal
  have hpb : player_before (add_match d inp).1.players q.name = pr := by
    rw [player_before, hpr]
    rfl
  obtain ⟨ht, hwn, hls, hsc, _, _, _⟩ := scalars_fields hprs
  have hlost := apply_score_rules_lost (player_before d.players q.name) q.tags
    (if decide (0 < (calculate_compensation d inp.dire_players
        inp.radiant_players).compensation) then
      (calculate_compensation d inp.dire_players inp.radiant_players).compensation
     else 0)
  have hcnt := apply_score_rules_counts (player_before d.players q.name) q.tags false
    (if decide (0 < (calculate_compensation d inp.dire_players
        inp.radiant_players).compensation) then
      (calculate_compensation d inp.dire_players inp.radiant_players).compensation
     else 0)
  refine ⟨by rw [hpr]; rfl, ?_, ?_, ?_, ?_⟩
  · rw [hpb, ht, hcnt.1]
  · rw [hpb, hls, hlost.1]
  · rw [hpb, hwn, hlost.2.1]
  · rw [hpb, hsc, hlost.2.2.2]
    by_cases hc : 0 < (calculate_compensation d inp.dire_players
        inp.radiant_players).compensation
    · simp [hc]
    · simp [hc]

/-- Witness for C10: a concrete match whose winner label matches neither
team. -/
theorem claim_C10_witness :
    (("平局" : String) ≠ "天辉" ∧ ("平局" : String) ≠ "夜魔" ∧
      (roster_names ([⟨"a", []⟩] ++ [⟨"b", []⟩])).Nodup ∧
      (⟨"a", []⟩ : PlayerAppearance) ∈
        ([⟨"a", []⟩] ++ [⟨"b", []⟩] : List PlayerAppearance) ∧
      (("a" : String) ≠ "")) ∧
    ((player_before (add_match ⟨[], [], []⟩
        ⟨"平局", [⟨"a", []⟩], [⟨"b", []⟩]⟩).1.players "a").losses =
      (player_before ([] : PMap) "a").losses + 1 ∧
     (player_before (add_match ⟨[], [], []⟩
        ⟨"平局", [⟨"a", []⟩], [⟨"b", []⟩]⟩).1.players "a").wins =
      (player_before ([] : PMap) "a").wins) :=
  ⟨⟨by decide, by decide, by decide, by decide, by decide⟩,
   ⟨((claim_C10 ⟨[], [], []⟩ ⟨"平局", [⟨"a", []⟩], [⟨"b", []⟩]⟩ (by decide) (by decide)
        (by decide)).2 ⟨"a", []⟩ (by decide) (by decide)).2.2.1,
    ((claim_C10 ⟨[], [], []⟩ ⟨"平局", [⟨"a", []⟩], [⟨"b", []⟩]⟩ (by decide) (by decide)
        (by decide)).2 ⟨"a", []⟩ (by decide) (by decide)).2.2.2.1⟩⟩

/-! ## Claim C6: counting invariants -/

/-- The per-record counting invariant. -/
def PInv (p : PlayerRecord) : Prop :=
  p.wins + p.losses = p.total_games ∧ p.mvp_count ≤ p.total_games ∧
  p.svp_count ≤ p.total_games ∧ p.jiang_count ≤ p.total_games

/-- The counting invariant over a players map. -/
def InvP (players : PMap) : Prop := ∀ kv ∈ players, PInv kv.2

theorem PInv_init (n : String) : PInv (initPlayer n) := by
  refine ⟨rfl, ?_, ?_, ?_⟩ <;> exact Nat.le_refl 0

theorem PInv_asr (p : PlayerRecord) (tags : List String) (won : Bool) (bonus : Rat)
    (hp : PInv p) : PInv (apply_score_rules p tags won bonus) := by
  obtain ⟨ht, hm, hsv, hjg, _, _⟩ := apply_score_rules_counts p tags won bonus
  obtain ⟨h1, h2, h3, h4⟩ := hp
  refine ⟨?_, ?_, ?_, ?_⟩
  · cases won
    · obtain ⟨ha, hb, _, _⟩ := apply_score_rules_lost p tags bonus
      rw [ha, hb, ht]
      omega
    · obtain ⟨ha, hb, _, _⟩ := apply_score_rules_won p tags bonus
      rw [ha, hb, ht]
      omega
  · rw [hm, ht]
    by_cases h : "MVP" ∈ tags <;> simp [h] <;> omega
  · rw [hsv, ht]
    by_cases h : "SVP" ∈ tags <;> simp [h] <;> omega
  · rw [hjg, ht]
    by_cases h : "僵" ∈ tags <;> simp [h] <;> omega

theorem aupdate_Inv (f : PlayerRecord → PlayerRecord)
    (hf : ∀ p, PInv p → PInv (f p)) {l : PMap} (hl : InvP l) (k : String) :
    InvP (aupdate f l k) := by
  induction l with
  | nil => intro kv hkv; simp [aupdate] at hkv
  | cons a rest ih =>
    obtain ⟨ka, va⟩ := a
    have hrest : InvP rest := fun kv hkv => hl kv (List.mem_cons_of_mem _ hkv)
    intro kv hkv
    by_cases hk : ka = k
    · rw [show aupdate f ((ka, va) :: rest) k = (ka, f va) :: rest by
        simp [aupdate, hk]] at hkv
      rcases List.mem_cons.1 hkv with rfl | h'
      · exact hf va (hl (ka, va) (List.mem_cons_self _ _))
      · exact hrest kv h'
    · rw [show aupdate f ((ka, va) :: rest) k = (ka, va) :: aupdate f rest k by
        simp [aupdate, hk]] at hkv
      rcases List.mem_cons.1 hkv with rfl | h'
      · exact hl (ka, va) (List.mem_cons_self _ _)
      · exact ih hrest kv h'

theorem upsp_Inv (players : PMap) (p : PlayerAppearance) (won : Bool) (bonus : Rat)
    (h : InvP players) : InvP (update_player_stats_players players p won bonus) := by
  by_cases hp : p.name = ""
  · rw [upsp_empty _ _ _ _ hp]; exact h
  · unfold update_player_stats_players
    rw [if_neg hp]
    refine aupdate_Inv _ (fun r hr => PInv_asr r p.tags won bonus hr) ?_ p.name
    by_cases hn : (alookup players p.name).isNone
    · rw [if_pos hn]
      intro kv hkv
      rcases List.mem_append.1 hkv with h' | h'
      · exact h kv h'
      · rcases List.mem_cons.1 h' with rfl | h''
        · exact PInv_init p.name
        · simp at h''
    · rw [if_neg hn]
      exact h

theorem fold_upsp_Inv (ps : List PlayerAppearance) (won : Bool) (bonus : Rat) :
    ∀ (players : PMap), InvP players →
    InvP (ps.foldl (fun pl pp => update_player_stats_players pl pp won bonus) players) := by
  induction ps with
  | nil => intro players h; exact h
  | cons a r ih =>
    intro players h
    rw [List.foldl_cons]
    exact ih _ (upsp_Inv _ _ _ _ h)

theorem teammate_inner_Inv (s : String) (i : Nat) (won : Bool) (names : List String) :
    ∀ (j : Nat) (players : PMap), InvP players →
    InvP (teammate_inner s i won j names players) := by
  induction names with
  | nil => intro j players h; exact h
  | cons n r ih =>
    intro j players h
    rw [show teammate_inner s i won j (n :: r) players =
        teammate_inner s i won (j + 1) r
          (if i ≠ j then
            aupdate (fun p => { p with teammates := bumpStat p.teammates n won }) players s
          else players) from rfl]
    refine ih _ _ ?_
    by_cases hij : i ≠ j
    · rw [if_pos hij]
      exact aupdate_Inv
        (fun p => { p with teammates := bumpStat p.teammates n won })
        (fun p hp => hp) h s
    · rw [if_neg hij]
      exact h

theorem opponent_inner_Inv (s : String) (won : Bool) (names : List String) :
    ∀ (players : PMap), InvP players → InvP (opponent_inner s won names players) := by
  induction names with
  | nil => intro players h; exact h
  | cons n r ih =>
    intro players h
    rw [show opponent_inner s won (n :: r) players =
        opponent_inner s won r
          (aupdate (fun p => { p with opponents := bumpStat p.opponents n won }) players s)
      from rfl]
    exact ih _ (aupdate_Inv
      (fun p => { p with opponents := bumpStat p.opponents n won })
      (fun p hp => hp) h s)

theorem team_outer_Inv (team opp : List String) (won : Bool) (names : List String) :
    ∀ (i : Nat) (players : PMap), InvP players →
    InvP (team_outer team opp won i names players) := by
  induction names with
  | nil => intro i players h; exact h
  | cons n r ih =>
    intro i players h
    rw [show team_outer team opp won i (n :: r) players =
        team_outer team opp won (i + 1) r
          (if (alookup players n).isNone then players
           else opponent_inner n won opp (teammate_inner n i won 0 team players))
      from rfl]
    refine ih _ _ ?_
    by_cases hn : (alookup players n).isNone
    · rw [if_pos hn]; exact h
    · rw [if_neg hn]
      exact opponent_inner_Inv _ _ _ _ (teammate_inner_Inv _ _ _ _ _ _ h)

theorem utos_Inv (players : PMap) (md : MatchRecord) (h : InvP players) :
    InvP (update_teammate_opponent_stats_players players md) := by
  unfold update_teammate_opponent_stats_players
  exact team_outer_Inv _ _ _ _ _ _ (team_outer_Inv _ _ _ _ _ _ h)

theorem amp_Inv (players : PMap) (md : MatchRecord) (h : InvP players) :
    InvP (apply_match_players players md) := by
  unfold apply_match_players
  exact utos_Inv _ _ (fold_upsp_Inv _ _ _ _ (fold_upsp_Inv _ _ _ _ h))

theorem foldl_amp_Inv (ms : List MatchRecord) :
    ∀ (players : PMap), InvP players → InvP (ms.foldl apply_match_players players) := by
  induction ms with
  | nil => intro players h; exact h
  | cons m r ih =>
    intro players h
    rw [List.foldl_cons]
    exact ih _ (amp_Inv _ _ h)

theorem replay_Inv (ms : List MatchRecord) : InvP (replay_players ms) :=
  foldl_amp_Inv ms [] (fun kv hkv => absurd hkv (List.not_mem_nil kv))

theorem apply_op_Inv (d : GameData) (op : LedgerOp) (h : InvP d.players) :
    InvP (apply_op d op).players := by
  cases op with
  | add inp =>
    show InvP (apply_match_players d.players (add_md d inp))
    exact amp_Inv _ _ h
  | update mid md =>
    show InvP (update_match d mid md).1.players
    unfold update_match
    rcases hfi : d.match_list.findIdx? (fun m => m.id == mid) with _ | i <;> rw [hfi]
    · exact h
    · dsimp only
      rw [recalc_players]
      exact replay_Inv _
  | delete mid =>
    show InvP (delete_match d mid).1.players
    unfold delete_match
    by_cases hf : (d.match_list.find? (fun m => m.id == mid)).isNone = true
    · rw [if_pos hf]; exact h
    · rw [if_neg hf]
      dsimp only
      rw [recalc_players]
      exact replay_Inv _

theorem apply_ops_Inv (ops : List LedgerOp) :
    ∀ (d : GameData), InvP d.players → InvP (apply_ops d ops).players := by
  induction ops with
  | nil => intro d h; exact h
  | cons op rest ih =>
    intro d h
    rw [show apply_ops d (op :: rest) = apply_ops (apply_op d op) rest from rfl]
    exact ih _ (apply_op_Inv d op h)

/-- Claim C6: after any sequence of add / update / delete operations on an
initially empty ledger (any overrides), every player record satisfies
`wins + losses = totalGames` and each tag count is at most `totalGames`. -/
theorem claim_C6 (ov : List (String × String)) (ops : List LedgerOp) :
    ∀ kv ∈ (apply_ops ⟨[], [], ov⟩ ops).players,
      kv.2.wins + kv.2.losses = kv.2.total_games ∧
      kv.2.mvp_count ≤ kv.2.total_games ∧
      kv.2.svp_count ≤ kv.2.total_games ∧
      kv.2.jiang_count ≤ kv.2.total_games := by
  intro kv hkv
  exact apply_ops_Inv ops ⟨[], [], ov⟩
    (fun kv' hkv' => absurd hkv' (List.not_mem_nil kv')) kv hkv

/-- Witness for C6: a single recorded match. -/
theorem claim_C6_witness :
    (("a", (⟨"a", 1, 1, 0, 1, 0, 0, 0, 0, 0, [], [("b", ⟨1, 1⟩)]⟩ : PlayerRecord)) ∈
      (apply_ops ⟨[], [], []⟩
        [LedgerOp.add ⟨"天辉", [⟨"a", []⟩], [⟨"b", []⟩]⟩]).players) ∧
    (1 + 0 = 1 ∧ (0 : Nat) ≤ 1 ∧ (0 : Nat) ≤ 1 ∧ (0 : Nat) ≤ 1) :=
  ⟨by with_unfolding_all decide,
   claim_C6 [] [LedgerOp.add ⟨"天辉", [⟨"a", []⟩], [⟨"b", []⟩]⟩]
     ("a", (⟨"a", 1, 1, 0, 1, 0, 0, 0, 0, 0, [], [("b", ⟨1, 1⟩)]⟩ : PlayerRecord))
     (by with_unfolding_all decide)⟩

/-! ## Claim C9: teammate-games symmetry -/

/-- Games held in a relation map for a key (0 when absent). -/
def statGames (m : List (String × TmStat)) (k : String) : Nat :=
  match alookup m k with
  | none => 0
  | some s => s.games

theorem aupdate_isSome {α : Type} (f : α → α) (l : List (String × α)) (k k' : String) :
    (alookup (aupdate f l k) k').isSome = (alookup l k').isSome := by
  by_cases h : k' = k
  · subst h
    rw [alookup_aupdate_self]
    cases alookup l k' <;> rfl
  · rw [alookup_aupdate_ne _ _ h]

theorem bumpStat_games (m : List (String × TmStat)) (key : String) (won : Bool)
    (k : String) :
    statGames (bumpStat m key won) k = statGames m k + (if k = key then 1 else 0) := by
  unfold bumpStat statGames
  by_cases hk : k = key
  · subst hk
    rcases hl : alookup m k with _ | s
    · rw [if_pos Option.isNone_none, alookup_aupdate_self, alookup_append_right _ hl]
      simp [alookup]
    · rw [if_neg (by simp : ¬((some s).isNone = true)), alookup_aupdate_self, hl]
      simp
  · rcases hl : alookup m key with _ | s
    · rw [if_pos Option.isNone_none, alookup_aupdate_ne _ _ hk]
      rcases hlk : alookup m k with _ | sk
      · rw [alookup_append_right _ hlk]
        have hne : ¬(key = k) := fun hh => hk hh.symm
        simp [alookup, hne, hk]
      · rw [alookup_append_left _ hlk]
        simp [hk]
    · rw [if_neg (by simp : ¬((some s).isNone = true)), alookup_aupdate_ne _ _ hk]
      simp [hk]

theorem tmGames_tbump (players : PMap) (s t : String) (won : Bool) (x y : String) :
    tmGames (aupdate (fun p => { p with teammates := bumpStat p.teammates t won })
        players s) x y =
      tmGames players x y +
        (if x = s ∧ y = t ∧ (alookup players s).isSome = true then 1 else 0) := by
  by_cases hx : x = s
  · subst hx
    rcases hl : alookup players x with _ | p
    · have h1 : tmGames (aupdate
          (fun p => { p with teammates := bumpStat p.teammates t won }) players x) x y
          = 0 := by
        unfold tmGames
        rw [alookup_aupdate_self, hl]
        rfl
      have h2 : tmGames players x y = 0 := by
        unfold tmGames
        rw [hl]
      rw [h1, h2]
      simp
    · have h1 : tmGames (aupdate
          (fun p => { p with teammates := bumpStat p.teammates t won }) players x) x y
          = statGames (bumpStat p.teammates t won) y := by
        unfold tmGames
        rw [alookup_aupdate_self, hl]
        rfl
      have h2 : tmGames players x y = statGames p.teammates y := by
        unfold tmGames
        rw [hl]
        rfl
      rw [h1, h2, bumpStat_games]
      by_cases hy : y = t <;> simp [hy]
  · have h1 : tmGames (aupdate
        (fun p => { p with teammates := bumpStat p.teammates t won }) players s) x y
        = tmGames players x y := by
      unfold tmGames
      rw [alookup_aupdate_ne _ _ hx]
    rw [h1, if_neg (fun h => hx h.1)]
    rfl

theorem tmGames_obump (players : PMap) (s t : String) (won : Bool) (x y : String) :
    tmGames (aupdate (fun p => { p with opponents := bumpStat p.opponents t won })
        players s) x y = tmGames players x y := by
  by_cases hx : x = s
  · subst hx
    unfold tmGames
    rw [alookup_aupdate_self]
    rcases hl : alookup players x with _ | p <;> rfl
  · unfold tmGames
    rw [alookup_aupdate_ne _ _ hx]

/-- Positions of `y` in a name list, indexed from `start`, skipping the
single avoided index. -/
def countIdx (y : String) (avoid : Nat) : Nat → List String → Nat
  | _, [] => 0
  | j, n :: r => (if n = y ∧ j ≠ avoid then 1 else 0) + countIdx y avoid (j + 1) r

theorem teammate_inner_tmGames (s : String) (i : Nat) (won : Bool)
    (names : List String) :
    ∀ (j : Nat) (players : PMap) (x y : String),
    tmGames (teammate_inner s i won j names players) x y =
      tmGames players x y +
        (if x = s ∧ (alookup players s).isSome = true then countIdx y i j names
         else 0) := by
  induction names with
  | nil =>
    intro j players x y
    simp [teammate_inner, countIdx]
  | cons n r ih =>
    intro j players x y
    rw [show teammate_inner s i won j (n :: r) players =
        teammate_inner s i won (j + 1) r
          (if i ≠ j then
            aupdate (fun p => { p with teammates := bumpStat p.teammates n won }) players s
          else players) from rfl]
    rw [ih]
    by_cases hij : i ≠ j
    · rw [if_pos hij, tmGames_tbump,
        show (alookup (aupdate
            (fun p => { p with teammates := bumpStat p.teammates n won }) players s)
          s).isSome = (alookup players s).isSome from aupdate_isSome _ _ _ _]
      by_cases hxs : x = s ∧ (alookup players s).isSome = true
      · obtain ⟨h1, h2⟩ := hxs
        rw [show countIdx y i j (n :: r) =
          (if n = y ∧ j ≠ i then 1 else 0) + countIdx y i (j + 1) r from rfl]
        have hji : j ≠ i := fun hh => hij hh.symm
        have hcomm : (if n = y ∧ j ≠ i then 1 else 0) = (if y = n then 1 else 0) := by
          by_cases hyn : y = n
          · rw [if_pos ⟨hyn.symm, hji⟩, if_pos hyn]
          · rw [if_neg (fun hh => hyn hh.1.symm), if_neg hyn]
        rw [hcomm]
        have hyt : (if x = s ∧ y = n ∧ (alookup players s).isSome = true then 1 else 0)
            = (if y = n then 1 else 0) := by
          by_cases hyn : y = n
          · rw [if_pos ⟨h1, hyn, h2⟩, if_pos hyn]
          · rw [if_neg (fun hh => hyn hh.2.1), if_neg hyn]
        have hc : x = s ∧ (alookup players s).isSome = true := ⟨h1, h2⟩
        rw [hyt, if_pos hc, if_pos hc]
        omega
      · have h1 : ¬(x = s ∧ y = n ∧ (alookup players s).isSome = true) := by
          intro hh
          exact hxs ⟨hh.1, hh.2.2⟩
        simp [hxs, h1]
    · rw [if_neg hij]
      have hji : ¬(j ≠ i) := fun hh => hij (fun hh' => hh hh'.symm)
      rw [show countIdx y i j (n :: r) =
        (if n = y ∧ j ≠ i then 1 else 0) + countIdx y i (j + 1) r from rfl]
      simp [hji]

theorem opponent_inner_tmGames (s : String) (won : Bool) (names : List String) :
    ∀ (players : PMap) (x y : String),
    tmGames (opponent_inner s won names players) x y = tmGames players x y := by
  induction names with
  | nil => intro players x y; rfl
  | cons n r ih =>
    intro players x y
    rw [show opponent_inner s won (n :: r) players =
        opponent_inner s won r
          (aupdate (fun p => { p with opponents := bumpStat p.opponents n won }) players s)
      from rfl]
    rw [ih, tmGames_obump]

/-- Per-subject contribution of one team block: each position of `x` in the
roster contributes the `y`-count of the full roster minus its own avoided
index. -/
def subjCount (full : List String) (x y : String) : Nat → List String → Nat
  | _, [] => 0
  | i, n :: r => (if n = x then countIdx y i 0 full else 0) + subjCount full x y (i + 1) r

theorem team_outer_tmGames (full opp : List String) (won : Bool)
    (names : List String) :
    ∀ (i : Nat) (players : PMap) (x y : String),
    tmGames (team_outer full opp won i names players) x y =
      tmGames players x y +
        (if (alookup players x).isSome = true then subjCount full x y i names
         else 0) := by
  induction names with
  | nil =>
    intro i players x y
    simp [team_outer, subjCount]
  | cons n r ih =>
    intro i players x y
    rw [show team_outer full opp won i (n :: r) players =
        team_outer full opp won (i + 1) r
          (if (alookup players n).isNone then players
           else opponent_inner n won opp (teammate_inner n i won 0 full players))
      from rfl]
    rw [ih]
    rw [show subjCount full x y i (n :: r) =
      (if n = x then countIdx y i 0 full else 0) + subjCount full x y (i + 1) r
      from rfl]
    by_cases hn : (alookup players n).isNone
    · rw [if_pos hn]
      by_cases hx : (alookup players x).isSome = true
      · have hnx : (if n = x then countIdx y i 0 full else 0) = 0 := by
          by_cases h : n = x
          · exfalso
            subst h
            rcases h' : alookup players n with _ | v
            · rw [h'] at hx
              simp at hx
            · rw [h'] at hn
              simp at hn
          · rw [if_neg h]
        rw [if_pos hx, if_pos hx, hnx]
        omega
      · rw [if_neg hx, if_neg hx]
    · rw [if_neg hn]
      have hns : (alookup players n).isSome = true := by
        rcases h' : alookup players n with _ | v
        · rw [h'] at hn
          simp at hn
        · rfl
      have hpres : (alookup (opponent_inner n won opp
          (teammate_inner n i won 0 full players)) x).isSome =
          (alookup players x).isSome := by
        apply map_scalars_isSome
        rw [opponent_inner_scalars, teammate_inner_scalars]
      have htm : tmGames (opponent_inner n won opp
          (teammate_inner n i won 0 full players)) x y =
          tmGames players x y +
            (if x = n ∧ (alookup players n).isSome = true then countIdx y i 0 full
             else 0) := by
        rw [opponent_inner_tmGames, teammate_inner_tmGames]
      rw [hpres, htm]
      by_cases hx : (alookup players x).isSome = true
      · rw [if_pos hx, if_pos hx]
        have heq : (if x = n ∧ (alookup players n).isSome = true then
            countIdx y i 0 full else 0) =
            (if n = x then countIdx y i 0 full else 0) := by
          by_cases h : n = x
          · rw [if_pos ⟨h.symm, hns⟩, if_pos h]
          · rw [if_neg (fun hh => h hh.1.symm), if_neg h]
        rw [heq]
        omega
      · rw [if_neg hx, if_neg hx]
        have heq : ¬(x = n ∧ (alookup players n).isSome = true) := by
          intro hh
          rw [hh.1] at hx
          exact hx hns
        rw [if_neg heq]

theorem countIdx_spec (y : String) (avoid : Nat) :
    ∀ (l : List String) (start : Nat),
    (∀ k, l.get? k = some y → start + k ≠ avoid) →
    countIdx y avoid start l = l.count y := by
  intro l
  induction l with
  | nil => intro start h; rfl
  | cons n r ih =>
    intro start h
    rw [show countIdx y avoid start (n :: r) =
      (if n = y ∧ start ≠ avoid then 1 else 0) + countIdx y avoid (start + 1) r
      from rfl]
    rw [ih (start + 1) (fun k hk => by
      have := h (k + 1) (by simpa using hk)
      omega)]
    by_cases hny : n = y
    · have hsa : start ≠ avoid := by
        have := h 0 (by simp [hny])
        omega
      rw [if_pos ⟨hny, hsa⟩, List.count_cons]
      simp [hny]
      omega
    · rw [if_neg (fun hh => hny hh.1), List.count_cons]
      simp [hny]

theorem subjCount_drop (full : List String) (x y : String) (hxy : x ≠ y) :
    ∀ (names : List String) (i : Nat), full.drop i = names →
    subjCount full x y i names = names.count x * full.count y := by
  intro names
  induction names with
  | nil => intro i h; simp [subjCount]
  | cons n r ih =>
    intro i h
    have hget : full.get? i = some n := by
      have h0 := List.get?_drop full i 0
      rw [h] at h0
      simpa using h0.symm
    have hdrop : full.drop (i + 1) = r := by
      have h1 := List.drop_drop 1 i full
      rw [h] at h1
      exact h1.symm
    rw [show subjCount full x y i (n :: r) =
      (if n = x then countIdx y i 0 full else 0) + subjCount full x y (i + 1) r
      from rfl]
    rw [ih (i + 1) hdrop]
    by_cases hnx : n = x
    · subst hnx
      rw [if_pos rfl]
      have hcnt : countIdx y i 0 full = full.count y := by
        apply countIdx_spec
        intro k hk heq
        have hki : k = i := by omega
        subst hki
        rw [hget] at hk
        injection hk with hh
        exact hxy hh
      rw [hcnt, List.count_cons]
      simp
      ring
    · rw [if_neg hnx, List.count_cons]
      simp [hnx]

theorem sym_delta (full : List String) (players : PMap) (x y : String)
    (hpres : ∀ n ∈ full, (alookup players n).isSome = true) :
    (if (alookup players x).isSome = true then full.count x * full.count y else 0) =
    (if (alookup players y).isSome = true then full.count y * full.count x else 0) := by
  by_cases hcx : full.count x = 0
  · simp [hcx]
  · by_cases hcy : full.count y = 0
    · simp [hcy]
    · have hx : (alookup players x).isSome = true :=
        hpres x (List.count_pos_iff_mem.1 (Nat.pos_of_ne_zero hcx))
      have hy : (alookup players y).isSome = true :=
        hpres y (List.count_pos_iff_mem.1 (Nat.pos_of_ne_zero hcy))
      rw [if_pos hx, if_pos hy, Nat.mul_comm]

theorem team_outer_isSome (full opp : List String) (won : Bool) (names : List String)
    (i : Nat) (players : PMap) (k : String) :
    (alookup (team_outer full opp won i names players) k).isSome =
      (alookup players k).isSome :=
  map_scalars_isSome (team_outer_scalars full opp won names i players k)

theorem team_outer_sym (full opp : List String) (won : Bool) (players : PMap)
    (hpres : ∀ n ∈ full, (alookup players n).isSome = true)
    (hsym : ∀ x y, x ≠ y → tmGames players x y = tmGames players y x) :
    ∀ x y, x ≠ y →
      tmGames (team_outer full opp won 0 full players) x y =
        tmGames (team_outer full opp won 0 full players) y x := by
  intro x y hxy
  rw [team_outer_tmGames, team_outer_tmGames,
    subjCount_drop full x y hxy full 0 (by simp),
    subjCount_drop full y x (fun h => hxy h.symm) full 0 (by simp),
    hsym x y hxy, sym_delta full players x y hpres]

theorem utos_sym (players : PMap) (md : MatchRecord)
    (hpR : ∀ n ∈ roster_names md.radiant_players, (alookup players n).isSome = true)
    (hpD : ∀ n ∈ roster_names md.dire_players, (alookup players n).isSome = true)
    (hsym : ∀ x y, x ≠ y → tmGames players x y = tmGames players y x) :
    ∀ x y, x ≠ y →
      tmGames (update_teammate_opponent_stats_players players md) x y =
        tmGames (update_teammate_opponent_stats_players players md) y x := by
  intro x y hxy
  unfold update_teammate_opponent_stats_players
  dsimp only
  refine team_outer_sym _ _ _ _ ?_ ?_ x y hxy
  · intro n hn
    rw [team_outer_isSome]
    exact hpD n hn
  · exact team_outer_sym _ _ _ _ hpR hsym

theorem upsp_tmGames (players : PMap) (p : PlayerAppearance) (won : Bool) (bonus : Rat)
    (x y : String) :
    tmGames (update_player_stats_players players p won bonus) x y =
      tmGames players x y := by
  by_cases hp : p.name = ""
  · rw [upsp_empty _ _ _ _ hp]
  · by_cases hx : x = p.name
    · subst hx
      unfold tmGames
      rw [update_pp_effect players p won bonus hp]
      have hteam : (apply_score_rules (player_before players p.name) p.tags won
          bonus).teammates = (player_before players p.name).teammates :=
        (apply_score_rules_counts _ _ _ _).2.2.2.2.1
      rcases hl : alookup players p.name with _ | v
      · show statGames (apply_score_rules (player_before players p.name) p.tags won
            bonus).teammates y = 0
        rw [hteam, player_before, hl]
        rfl
      · show statGames (apply_score_rules (player_before players p.name) p.tags won
            bonus).teammates y = statGames v.teammates y
        rw [hteam, player_before, hl]
        rfl
    · unfold tmGames
      rw [update_pp_frame players p won bonus hx]

theorem fold_upsp_tmGames (ps : List PlayerAppearance) (won : Bool) (bonus : Rat) :
    ∀ (players : PMap) (x y : String),
    tmGames (ps.foldl (fun pl pp => update_player_stats_players pl pp won bonus) players)
        x y = tmGames players x y := by
  induction ps with
  | nil => intro players x y; rfl
  | cons a r ih =>
    intro players x y
    rw [List.foldl_cons, ih, upsp_tmGames]

theorem amp_sym (players : PMap) (md : MatchRecord)
    (hsym : ∀ x y, x ≠ y → tmGames players x y = tmGames players y x) :
    ∀ x y, x ≠ y →
      tmGames (apply_match_players players md) x y =
        tmGames (apply_match_players players md) y x := by
  intro x y hxy
  unfold apply_match_players
  dsimp only
  refine utos_sym _ md ?_ ?_ ?_ x y hxy
  · intro n hn
    exact fold_upsp_mono _ _ _ _ _ (fold_upsp_present _ _ _ _ _ hn)
  · intro n hn
    exact fold_upsp_present _ _ _ _ _ hn
  · intro a b hab
    simp only [fold_upsp_tmGames]
    exact hsym a b hab

/-- Symmetry of the teammate games relation over a players map. -/
def SymP (players : PMap) : Prop :=
  ∀ x y, x ≠ y → tmGames players x y = tmGames players y x

theorem foldl_amp_sym (ms : List MatchRecord) :
    ∀ (players : PMap), SymP players → SymP (ms.foldl apply_match_players players) := by
  induction ms with
  | nil => intro players h; exact h
  | cons m r ih =>
    intro players h
    rw [List.foldl_cons]
    exact ih _ (amp_sym players m h)

theorem replay_sym (ms : List MatchRecord) : SymP (replay_players ms) :=
  foldl_amp_sym ms [] (fun x y hxy => rfl)

theorem apply_op_sym (d : GameData) (op : LedgerOp) (h : SymP d.players) :
    SymP (apply_op d op).players := by
  cases op with
  | add inp =>
    show SymP (apply_match_players d.players (add_md d inp))
    exact amp_sym _ _ h
  | update mid md =>
    show SymP (update_match d mid md).1.players
    unfold update_match
    rcases hfi : d.match_list.findIdx? (fun m => m.id == mid) with _ | i <;> rw [hfi]
    · exact h
    · dsimp only
      rw [recalc_players]
      exact replay_sym _
  | delete mid =>
    show SymP (delete_match d mid).1.players
    unfold delete_match
    by_cases hf : (d.match_list.find? (fun m => m.id == mid)).isNone = true
    · rw [if_pos hf]; exact h
    · rw [if_neg hf]
      dsimp only
      rw [recalc_players]
      exact replay_sym _

theorem apply_ops_sym (ops : List LedgerOp) :
    ∀ (d : GameData), SymP d.players → SymP (apply_ops d ops).players := by
  induction ops with
  | nil => intro d h; exact h
  | cons op rest ih =>
    intro d h
    rw [show apply_ops d (op :: rest) = apply_ops (apply_op d op) rest from rfl]
    exact ih _ (apply_op_sym d op h)

/-- Claim C9: after any sequence of add / update / delete operations on an
initially empty ledger, for any two distinct players whose records both
exist, the teammate games counters agree in both directions (a missing
relation entry counting as zero games). -/
theorem claim_C9 (ov : List (String × String)) (ops : List LedgerOp) (x y : String)
    (hxy : x ≠ y)
    (hx : (alookup (apply_ops ⟨[], [], ov⟩ ops).players x).isSome = true)
    (hy : (alookup (apply_ops ⟨[], [], ov⟩ ops).players y).isSome = true) :
    tmGames (apply_ops ⟨[], [], ov⟩ ops).players x y =
      tmGames (apply_ops ⟨[], [], ov⟩ ops).players y x :=
  apply_ops_sym ops ⟨[], [], ov⟩ (fun a b hab => rfl) x y hxy

/-- Witness for C9: one recorded match with a two-player radiant roster. -/
theorem claim_C9_witness :
    ((("a" : String) ≠ "b") ∧
     (alookup (apply_ops ⟨[], [], []⟩
        [LedgerOp.add ⟨"天辉", [⟨"a", []⟩, ⟨"b", []⟩], [⟨"c", []⟩]⟩]).players
        "a").isSome = true ∧
     (alookup (apply_ops ⟨[], [], []⟩
        [LedgerOp.add ⟨"天辉", [⟨"a", []⟩, ⟨"b", []⟩], [⟨"c", []⟩]⟩]).players
        "b").isSome = true) ∧
    tmGames (apply_ops ⟨[], [], []⟩
        [LedgerOp.add ⟨"天辉", [⟨"a", []⟩, ⟨"b", []⟩], [⟨"c", []⟩]⟩]).players "a" "b" =
      tmGames (apply_ops ⟨[], [], []⟩
        [LedgerOp.add ⟨"天辉", [⟨"a", []⟩, ⟨"b", []⟩], [⟨"c", []⟩]⟩]).players "b" "a" :=
  ⟨⟨by decide, by with_unfolding_all decide, by with_unfolding_all decide⟩,
   claim_C9 [] [LedgerOp.add ⟨"天辉", [⟨"a", []⟩, ⟨"b", []⟩], [⟨"c", []⟩]⟩] "a" "b"
     (by decide) (by with_unfolding_all decide) (by with_unfolding_all decide)⟩
